import Mathlib

/-!
A shallow embedding of `serveur3-LesTryhardeusesDuDimanche.go`: the sender core of
`sendFile` (segmentation, window, ACK loop, transmit loop) and the listener loop of
`main`, which `serveur.go` shares.

* A byte is a `Nat` and a byte slice a `List Nat` (the code never does arithmetic
  on payload bytes).
* Go `int` values are `Int`: every quantity here is bounded far below `2^63`
  (sequence numbers have at most six digits, ports at most four), so no
  wrap-around is reachable. File sizes and slice lengths are `Nat`.
* The two loops of `sendFile` share their variables with no synchronisation. They are
  modelled twice over one record of these variables. In the serialised session (`step`,
  `run`) an iteration of the transmit goroutine, guard and body, is one step. In the
  interleaved session (`concStep`, `concRun`) the transmit goroutine advances one
  statement at a time and an iteration of the ACK loop can land between any two of
  them, so that an index out of range, a body executed after the closing ACK and a
  `next_seq++` that overwrites a fast retransmit all occur. Every serialised run is an
  interleaved run (`run_is_interleaved_run`).
-/

namespace TcpOverUdp

/-! ## Segmentation: lines 52-72 and the `send` closure, lines 88-105 -/

/-- The constant `chunkSize := 1494`. -/
def chunkSize : Nat := 1494

/-- Lines 54-57: `nbseg := size / chunkSize`, plus one when `nbseg*chunkSize < size`. -/
def nbseg (size : Nat) : Nat :=
  let n := size / chunkSize
  if n * chunkSize < size then n + 1 else n

/-- The digit loop of Go's integer formatter: ASCII decimal digits of `u`, least
significant first (`for u >= 10 { buf[i] = '0' + u%10; u /= 10 }; buf[i] = '0' + u`).
The first argument bounds the number of digits; 20 covers every 64-bit value. -/
def fmtDigits : Nat → Nat → List Nat
  | 0, _ => []
  | fuel + 1, u => if u < 10 then [48 + u] else (48 + u % 10) :: fmtDigits fuel (u / 10)

/-- The call `fmt.Sprintf("%06d", u)` for a non-negative `u`: the decimal digits,
left-padded with `'0'` to width 6. -/
def sprintf06 (u : Nat) : List Nat :=
  let ds := (fmtDigits 20 u).reverse
  List.replicate (6 - ds.length) 48 ++ ds

/-- Go's builtin `copy(dst, src)`: the new contents of `dst`. -/
def goCopy (dst src : List Nat) : List Nat :=
  src.take dst.length ++ dst.drop src.length

/-- The call `file.Read(buf)` as a sequential full read: `rest` is the unread part of
the file; the front of `buf` receives the next `min (len buf) (len rest)` bytes.
Returns the new contents of `buf` and the new unread part. -/
def fileRead (rest buf : List Nat) : List Nat × List Nat :=
  (rest.take buf.length ++ buf.drop rest.length, rest.drop buf.length)

/-- One iteration of the loop of lines 64-72 for index `i`: a zeroed buffer of
`chunkSize+6` bytes, header copied into `[0:6]`, file read into `[6:]`. -/
def mkPacket (i : Nat) (rest : List Nat) : List Nat × List Nat :=
  let p0 : List Nat := List.replicate (chunkSize + 6) 0
  let p1 := goCopy (p0.take 6) (sprintf06 (i + 1)) ++ p0.drop 6
  let r := fileRead rest (p1.drop 6)
  (p1.take 6 ++ r.1, r.2)

/-- The loop of lines 64-72, `n` iterations starting at index `i`. -/
def fillPackets : Nat → Nat → List Nat → List (List Nat)
  | 0, _, _ => []
  | n + 1, i, rest => (mkPacket i rest).1 :: fillPackets n (i + 1) (mkPacket i rest).2

/-- The packet table built by `sendFile` for a file with the given bytes. -/
def buildPackets (file : List Nat) : List (List Nat) :=
  fillPackets (nbseg file.length) 0 file

/-- What one call of the `send` closure does to the socket. -/
inductive SendResult where
  | skipped
  | wrote (d : List Nat)
  | indexPanic
  deriving DecidableEq, Repr

/-- The slice expression `xs[0:hi]`; `none` when the bound is out of range. -/
def goSlice (xs : List Nat) (hi : Int) : Option (List Nat) :=
  if 0 ≤ hi ∧ hi ≤ xs.length then some (xs.take hi.toNat) else none

/-- The socket effect of `send(num_seq)`, lines 88-105, for a packet table and the
file size `fi.Size()`. -/
def sendDatagram (packets : List (List Nat)) (size : Nat) (num_seq : Int) : SendResult :=
  let seq_max : Int := packets.length
  if num_seq ≤ seq_max then
    if num_seq - 1 < 0 then SendResult.indexPanic
    else
      match packets[(num_seq - 1).toNat]? with
      | none => SendResult.indexPanic
      | some p =>
        if num_seq = seq_max then
          let n : Int := (size : Int) - (seq_max - 1) * (chunkSize : Int)
          match goSlice p (n + 6) with
          | none => SendResult.indexPanic
          | some d => SendResult.wrote d
        else SendResult.wrote p
  else SendResult.skipped

/-- The payload part of a written datagram (everything after the 6-byte header). -/
def payloadOf : SendResult → List Nat
  | SendResult.wrote d => d.drop 6
  | _ => []

/-- The 6-digit zero-padded decimal rendering of `s`, digit by digit, as ASCII. -/
def zeroPad6 (s : Nat) : List Nat :=
  [48 + s / 100000 % 10, 48 + s / 10000 % 10, 48 + s / 1000 % 10,
   48 + s / 100 % 10, 48 + s / 10 % 10, 48 + s % 10]

/-! ## Decoding an acknowledgement: `getSeq`, lines 25-28 -/

/-- Number of leading bytes of `s` that form one white-space rune other than newline, as
the scanner of Go's `fmt` classifies runes (tab, VT, FF, CR, space, and the UTF-8
encodings of U+0085, U+00A0, U+1680, U+2000..U+200A, U+2028, U+2029, U+202F, U+205F,
U+3000); `0` when `s` does not start with such a rune. -/
def spaceRuneLen (s : List Nat) : Nat :=
  match s with
  | [] => 0
  | b0 :: rest =>
    if b0 = 9 ∨ b0 = 11 ∨ b0 = 12 ∨ b0 = 13 ∨ b0 = 32 then 1
    else
      match rest with
      | [] => 0
      | b1 :: rest2 =>
        if b0 = 194 ∧ (b1 = 133 ∨ b1 = 160) then 2
        else
          match rest2 with
          | [] => 0
          | b2 :: _ =>
            if (b0 = 225 ∧ b1 = 154 ∧ b2 = 128)
                ∨ (b0 = 226 ∧ b1 = 128 ∧ ((128 ≤ b2 ∧ b2 ≤ 138) ∨ b2 = 168 ∨ b2 = 169 ∨ b2 = 175))
                ∨ (b0 = 226 ∧ b1 = 129 ∧ b2 = 159)
                ∨ (b0 = 227 ∧ b1 = 128 ∧ b2 = 128) then 3
            else 0

/-- The scanner's `SkipSpace` for `Sscanf`: leading white space is dropped, a newline is
the error "unexpected newline" (`none`). The first argument bounds the iterations. -/
def skipSpace : Nat → List Nat → Option (List Nat)
  | 0, s => some s
  | fuel + 1, s =>
    match s with
    | [] => some []
    | b :: _ =>
      if b = 10 then none
      else if spaceRuneLen s = 0 then some s
      else skipSpace fuel (s.drop (spaceRuneLen s))

/-- A byte the scanner accepts inside a number for the verb `d`: `0`..`9`. -/
def isNumberByte (b : Nat) : Bool := decide (48 ≤ b) && decide (b ≤ 57)

/-- The value of a list of ASCII decimal digits. -/
def digitsValue (tok : List Nat) : Int :=
  tok.foldl (fun acc b => acc * 10 + ((b : Int) - 48)) 0

/-- The call `fmt.Sscanf(input, "%06d", &seq)`: `some n` when it stores `n`, `none` when
it fails and stores nothing. White space is skipped, at most 6 further bytes are
consumed (the width), and an optional sign followed by a non-empty run of digits forms
the token, which `strconv.ParseInt(tok, 10, 64)` converts. The scan stops at the first
byte that is not a digit; input after the token is not looked at. -/
def sscanfInt (input : List Nat) : Option Int :=
  match skipSpace (input.length + 1) input with
  | none => none
  | some s =>
    let s6 := s.take 6
    let neg : Bool := s6.head? = some 45
    let body := if s6.head? = some 43 ∨ s6.head? = some 45 then s6.drop 1 else s6
    let tok := body.takeWhile isNumberByte
    if tok = [] then none
    else some (if neg then - digitsValue tok else digitsValue tok)

/-- Lines 25-28. The named result `seq` starts at 0 and keeps that value when the scan
fails: the error of `Sscanf` is not looked at. -/
def getSeq (ack : List Nat) : Int :=
  match sscanfInt ack with
  | some n => n
  | none => 0

/-! ## The shared variables of `sendFile`, lines 75-86 -/

/-- The constant `winSize := 65`. -/
def winSize : Int := 65

/-- The variables captured by the closures and loops of `sendFile`. A timeout entry is
`none` while it still holds the zero `time.Time`, else the clock value (nanoseconds)
stored by `send`. -/
structure Vars where
  next_seq : Int
  last_ack : Int
  same_ack : Int
  lost_ack : Bool
  borneInfSlide : Bool
  borneInf : Int
  borneSup : Int
  next_biggest_ack : Int
  timeouts : List (Option Int)
  buf : List Nat
  deriving DecidableEq, Repr

/-- A datagram written on the session socket: `data s` is the datagram `sendDatagram`
computes for `num_seq = s`, `fin` is the three bytes `FIN`. -/
inductive Datagram where
  | data (num_seq : Int)
  | fin
  deriving DecidableEq, Repr

/-- Lines 75-86, for a packet table of `seq_max` packets. -/
def initVars (seq_max : Nat) : Vars :=
  { next_seq := 1, last_ack := 0, same_ack := 0, lost_ack := false,
    borneInfSlide := false, borneInf := 1, borneSup := 0, next_biggest_ack := 0 + 1,
    timeouts := List.replicate (seq_max + 2) none, buf := List.replicate 32 0 }

/-- The `send` closure, lines 88-105, on the shared variables: the datagram written (none
when the socket is closed and `WriteToUDP` fails) and the stamped timeout. The result is
`none` when an index is out of range (`packets[num_seq-1]`, `timeouts[num_seq-1]`); the
slice `[0:n+6]` of the last packet is in range for the table `buildPackets` builds, see
`sendDatagram`. -/
def send (seq_max : Nat) (connOpen : Bool) (now : Int) (num_seq : Int) (v : Vars) :
    Option (Vars × List Datagram) :=
  if num_seq ≤ seq_max then
    if num_seq - 1 < 0 then none
    else if (num_seq - 1).toNat < v.timeouts.length then
      some ({ v with timeouts := v.timeouts.set (num_seq - 1).toNat (some now) },
        if connOpen then [Datagram.data num_seq] else [])
    else none
  else some (v, [])

/-- The `window` closure, lines 107-143: the updated variables and the returned boolean.
Go's `/` on `int` truncates toward zero. -/
def window (v : Vars) : Vars × Bool :=
  let v1 := if v.next_seq < v.next_biggest_ack then { v with next_seq := v.next_biggest_ack } else v
  let quotient := Int.tdiv (v1.next_biggest_ack - 1) winSize
  let v2 :=
    if v1.lost_ack = true then
      { v1 with borneInf := v1.next_biggest_ack, lost_ack := false, borneInfSlide := true }
    else if v1.borneInfSlide = false then
      { v1 with borneInf := quotient * winSize + 1 }
    else if v1.borneSup < v1.next_biggest_ack then
      { v1 with borneInf := v1.borneInf + winSize }
    else v1
  let v3 := { v2 with borneSup := v2.borneInf + winSize - 1 }
  (v3, decide (v3.next_seq ≥ v3.borneInf) && decide (v3.next_seq ≤ v3.borneSup))

/-- The test `time.Since(timeouts[i]) > 300ms` at clock value `now`: a zero `time.Time`
is centuries in the past. -/
def timedOut (now : Int) (stamp : Option Int) : Bool :=
  match stamp with
  | none => true
  | some t => decide (now - t > 300000000)

/-- The body of the transmit loop, lines 153-177, run as one step at clock value `now`.
`none` when an index is out of range. -/
def transmitBody (seq_max : Nat) (connOpen : Bool) (now : Int) (v : Vars) :
    Option (Vars × List Datagram) :=
  let w := window v
  if w.2 = true then
    match send seq_max connOpen now w.1.next_seq w.1 with
    | none => none
    | some (v1, out) => some ({ v1 with next_seq := v1.next_seq + 1 }, out)
  else
    if w.1.next_biggest_ack < 0 then none
    else
      match w.1.timeouts[w.1.next_biggest_ack.toNat]? with
      | none => none
      | some stamp =>
        if timedOut now stamp = true then
          some ({ w.1 with next_seq := w.1.next_biggest_ack }, [])
        else some (w.1, [])

/-- Lines 202-226: the state update of the ACK loop for a decoded value `ack`, and the
datagram it writes. -/
def ackUpdate (seq_max : Nat) (ack : Int) (v : Vars) : Vars × List Datagram :=
  let v1 :=
    if ack = v.last_ack then
      let u := { v with same_ack := v.same_ack + 1 }
      if u.same_ack > 2 then
        { u with next_seq := ack + 1, lost_ack := true, same_ack := 0 }
      else u
    else v
  let v2 := if ack ≥ v1.last_ack then { v1 with last_ack := ack } else v1
  let v3 :=
    if v2.last_ack ≥ v2.next_biggest_ack then { v2 with next_biggest_ack := v2.last_ack + 1 }
    else v2
  (v3, if v3.last_ack = (seq_max : Int) then [Datagram.fin] else [])

/-- The value the ACK loop decodes when datagram `dgram` is read into `buf`
(`ReadFromUDP(buf)` overwrites the front of `buf`, line 194 scans `buf[3:9]`). -/
def decodeAck (buf dgram : List Nat) : Int :=
  getSeq (((goCopy buf dgram).drop 3).take 6)

/-- The body of the ACK loop, lines 187-226, for a datagram that was received. -/
def ackBody (seq_max : Nat) (dgram : List Nat) (v : Vars) : Vars × List Datagram :=
  ackUpdate seq_max (decodeAck v.buf dgram) { v with buf := goCopy v.buf dgram }

/-! ## One session, serialised: an iteration of either loop is one step -/

/-- What happens next in a session: one iteration of the transmit goroutine at a
clock value, one datagram delivered to the blocked `ReadFromUDP`, or `ReadFromUDP`
returning an error. -/
inductive Event where
  | tick (now : Int)
  | recv (dgram : List Nat)
  | recvErr
  deriving DecidableEq, Repr

/-- A session: the shared variables, whether the ACK loop (the body of `sendFile`) is
still running, whether the transmit goroutine is still running, and the datagrams
written so far (oldest first). When `sendFile` returns, the deferred `conn.Close()` of
`file` closes the socket, so the socket is open exactly while `ackLoop` is true. -/
structure Session where
  v : Vars
  ackLoop : Bool
  sendLoop : Bool
  sent : List Datagram
  deriving DecidableEq, Repr

/-- The session when both loops first test their guard `next_biggest_ack <= seq_max`. -/
def initSession (seq_max : Nat) : Session :=
  { v := initVars seq_max,
    ackLoop := decide ((initVars seq_max).next_biggest_ack ≤ (seq_max : Int)),
    sendLoop := true, sent := [] }

/-- One step of a serialised session. A `tick` tests the guard of the transmit loop
(line 147) and runs its body, with no iteration of the ACK loop in between; a `recv`
runs the body of the ACK loop and then tests its guard (line 185); `recvErr` is the
`return` of line 191. `none` is a run-time panic. What an ACK landing inside an
iteration of the transmit goroutine does is in `concStep`. -/
def step (seq_max : Nat) (e : Event) (s : Session) : Option Session :=
  match e with
  | Event.tick now =>
    if s.sendLoop = true then
      if s.v.next_biggest_ack ≤ (seq_max : Int) then
        match transmitBody seq_max s.ackLoop now s.v with
        | none => none
        | some (v1, out) => some { s with v := v1, sent := s.sent ++ out }
      else some { s with sendLoop := false }
    else some s
  | Event.recv dgram =>
    if s.ackLoop = true then
      let r := ackBody seq_max dgram s.v
      some { s with v := r.1, sent := s.sent ++ r.2,
                    ackLoop := decide (r.1.next_biggest_ack ≤ (seq_max : Int)) }
    else some s
  | Event.recvErr =>
    if s.ackLoop = true then some { s with ackLoop := false } else some s

/-- Running a session from state `s` through a list of events. -/
def runFrom (seq_max : Nat) : Session → List Event → Option Session
  | s, [] => some s
  | s, e :: es =>
    match step seq_max e s with
    | none => none
    | some s1 => runFrom seq_max s1 es

/-- Running a fresh session through a list of events. -/
def run (seq_max : Nat) (evs : List Event) : Option Session :=
  runFrom seq_max (initSession seq_max) evs

/-- Number of `FIN` datagrams among the datagrams written. -/
def finCount (sent : List Datagram) : Nat := sent.count Datagram.fin

/-- The datagram `"ACK" + format06(a)` a client sends. -/
def ackDatagram (a : Nat) : List Nat := [65, 67, 75] ++ zeroPad6 a

/-! ## The listener: the loop of `main`, lines 330-386 -/

/-- Whether `pat` is a prefix of `s`. -/
def startsWith : List Nat → List Nat → Bool
  | [], _ => true
  | _ :: _, [] => false
  | p :: ps, b :: bs => decide (p = b) && startsWith ps bs

/-- The call `strings.Contains(s, pat)`. -/
def containsBytes (pat : List Nat) : List Nat → Bool
  | [] => startsWith pat []
  | b :: bs => startsWith pat (b :: bs) || containsBytes pat bs

/-- The variables of `main`: the next port to hand out, the map `current_conn` (most
recent entry first), the 1500-byte receive buffer, and whether the loop still runs. -/
structure Listener where
  new_port : Int
  current_conn : List (Int × Int)
  buffer : List Nat
  running : Bool
  deriving DecidableEq, Repr

/-- What the listener does in one iteration: announce a port in a `SYN-ACK`, or start
the goroutine `file` on a port. -/
inductive ListenerAction where
  | synAck (port : Int)
  | spawnFile (port : Int)
  deriving DecidableEq, Repr

/-- One `ReadFromUDP` of the listener: an error, or a datagram from a source port. -/
inductive ListenerEvent where
  | readErr
  | dgram (srcPort : Int) (payload : List Nat)
  deriving DecidableEq, Repr

/-- Lines 331-334. -/
def initListener : Listener :=
  { new_port := 1024, current_conn := [], buffer := List.replicate 1500 0, running := true }

/-- One iteration of the loop of `main`, lines 336-386. -/
def listenerStep (st : Listener) (e : ListenerEvent) : Listener × List ListenerAction :=
  if st.running = true then
    match e with
    | ListenerEvent.readErr => ({ st with running := false }, [])
    | ListenerEvent.dgram srcPort payload =>
      let buffer := goCopy st.buffer payload
      match st.current_conn.lookup srcPort with
      | none =>
        if containsBytes [83, 89, 78] buffer = true then
          let p := st.new_port + 1
          ({ st with buffer := buffer,
                     current_conn := (srcPort, st.new_port) :: st.current_conn,
                     new_port := if p = 9999 then 1024 else p },
            [ListenerAction.synAck st.new_port])
        else ({ st with buffer := buffer }, [])
      | some port =>
        if containsBytes [65, 67, 75] buffer = true then
          ({ st with buffer := buffer }, [ListenerAction.spawnFile port])
        else ({ st with buffer := buffer }, [])
  else (st, [])

/-- Running the listener through a list of events: final state and all actions. -/
def listenerRun : Listener → List ListenerEvent → Listener × List ListenerAction
  | st, [] => (st, [])
  | st, e :: es =>
    let r := listenerStep st e
    let r2 := listenerRun r.1 es
    (r2.1, r.2 ++ r2.2)

/-- The ports announced in `SYN-ACK` datagrams, in order. -/
def allocatedPorts : List ListenerAction → List Int
  | [] => []
  | ListenerAction.synAck p :: as => p :: allocatedPorts as
  | ListenerAction.spawnFile _ :: as => allocatedPorts as

/-- A step of the sender core on the shared variables: the ACK loop processing a
decoded value, or one iteration of the transmit loop. -/
inductive CoreStep where
  | ack (a : Int)
  | transmit (connOpen : Bool) (now : Int)
  deriving DecidableEq, Repr

/-- The effect of a step of the sender core; `none` is a run-time panic. -/
def coreStep (seq_max : Nat) : CoreStep → Vars → Option (Vars × List Datagram)
  | CoreStep.ack a, v => some (ackUpdate seq_max a v)
  | CoreStep.transmit connOpen now, v => transmitBody seq_max connOpen now v

/-! ## Predicates on runs -/

/-- What every state reached by `run` satisfies. -/
structure Inv (N : Nat) (s : Session) : Prop where
  nba_eq : s.v.next_biggest_ack = s.v.last_ack + 1
  last_nonneg : 0 ≤ s.v.last_ack
  guard : s.ackLoop = true → s.v.next_biggest_ack ≤ (N : Int)
  tlen : s.v.timeouts.length = N + 2
  fins : finCount s.sent = if s.v.last_ack = (N : Int) ∧ 1 ≤ N then 1 else 0
  low_pos : 1 ≤ s.v.borneInf
  low_le : s.v.borneInf ≤ s.v.next_biggest_ack
  tight : s.v.borneInfSlide = true → s.v.borneSup = s.v.borneInf + 64

/-- Whether every datagram the ACK loop processes while the events `evs` run from
state `s` decodes to a value of at most `x`. -/
def acksAtMost (N : Nat) (x : Int) : Session → List Event → Bool
  | _, [] => true
  | s, e :: es =>
    (match e with
     | Event.recv d => !s.ackLoop || decide (decodeAck s.v.buf d ≤ x)
     | _ => true) &&
    (match step N e s with
     | none => true
     | some s1 => acksAtMost N x s1 es)

/-! ## The window recomputation in the words of the specification -/

/-- The part of the specification's window state that the window recomputation reads
or writes. -/
structure WindowState where
  nextBiggestAck : Int
  nextSeq : Int
  winLow : Int
  winHigh : Int
  lostAckFlag : Bool
  lowSlid : Bool
  deriving DecidableEq, Repr

/-- The window state held in the variables of `sendFile`. -/
def windowStateOf (v : Vars) : WindowState :=
  { nextBiggestAck := v.next_biggest_ack, nextSeq := v.next_seq, winLow := v.borneInf,
    winHigh := v.borneSup, lostAckFlag := v.lost_ack, lowSlid := v.borneInfSlide }

/-- Step 2 of the specification's transmit loop: if `nextSeq < nextBiggestAck`,
advance `nextSeq := nextBiggestAck`. -/
def specAdvance (w : WindowState) : WindowState :=
  if w.nextSeq < w.nextBiggestAck then { w with nextSeq := w.nextBiggestAck } else w

/-- The specification's new `winLow` for window size `W`. Its `div` is the integer
division of the source language, which truncates; for `nextBiggestAck ≥ 1`, the range
the specification gives that variable, truncation and floor agree. -/
def specWinLow (W : Int) (w : WindowState) : Int :=
  if w.lostAckFlag = true then w.nextBiggestAck
  else if w.lowSlid = false then Int.tdiv (w.nextBiggestAck - 1) W * W + 1
  else if w.winHigh < w.nextBiggestAck then w.winLow + W
  else w.winLow

/-- The specification's window recomputation for window size `W`: the new window
state and the returned boolean. -/
def specRecompute (W : Int) (w : WindowState) : WindowState × Bool :=
  let lo := specWinLow W w
  let hi := lo + W - 1
  ({ w with winLow := lo, winHigh := hi,
            lostAckFlag := if w.lostAckFlag = true then false else w.lostAckFlag,
            lowSlid := if w.lostAckFlag = true then true else w.lowSlid },
    decide (lo ≤ w.nextSeq) && decide (w.nextSeq ≤ hi))

/-- The `n` events `tick` at the clock values `t0`, `t0 + dt`, `t0 + 2*dt`, ...: transmit
steps of a serialised session, statements of the transmit goroutine in an interleaved
one. -/
def ticksFrom (t0 dt : Int) : Nat → List Event
  | 0 => []
  | n + 1 => Event.tick t0 :: ticksFrom (t0 + dt) dt n

/-- Where the transmit goroutine stands. -/
inductive Pc where
  | guard
  | body
  | send
  | incr
  | stall
  | exited
  deriving DecidableEq, Repr

/-- A session with the position of the transmit goroutine: the shared variables,
whether the ACK loop is still running (the socket is open exactly then), the position
`pc`, whether the process has died of a run-time panic, and the datagrams written so
far. At `guard` the test of line 147 comes next; at `body` the guard has passed and
`window()` of line 156 comes next; at `send` the call of line 158; at `incr` the
increment of line 163; at `stall` the test of line 170. -/
structure Conc where
  v : Vars
  ackLoop : Bool
  pc : Pc
  panicked : Bool
  sent : List Datagram
  deriving DecidableEq, Repr

/-- The session when both goroutines first test their guards. -/
def concInit (seq_max : Nat) : Conc :=
  { v := initVars seq_max,
    ackLoop := decide ((initVars seq_max).next_biggest_ack ≤ (seq_max : Int)),
    pc := Pc.guard, panicked := false, sent := [] }

/-- One statement of the transmit goroutine, executed at clock value `now`. -/
def concTick (seq_max : Nat) (now : Int) (s : Conc) : Conc :=
  match s.pc with
  | Pc.guard =>
    if s.v.next_biggest_ack ≤ (seq_max : Int) then { s with pc := Pc.body }
    else { s with pc := Pc.exited }
  | Pc.body =>
    { s with v := (window s.v).1, pc := if (window s.v).2 = true then Pc.send else Pc.stall }
  | Pc.send =>
    match send seq_max s.ackLoop now s.v.next_seq s.v with
    | none => { s with panicked := true }
    | some r => { s with v := r.1, sent := s.sent ++ r.2, pc := Pc.incr }
  | Pc.incr => { s with v := { s.v with next_seq := s.v.next_seq + 1 }, pc := Pc.guard }
  | Pc.stall =>
    if s.v.next_biggest_ack < 0 then { s with panicked := true }
    else
      match s.v.timeouts[s.v.next_biggest_ack.toNat]? with
      | none => { s with panicked := true }
      | some stamp =>
        if timedOut now stamp = true then
          { s with v := { s.v with next_seq := s.v.next_biggest_ack }, pc := Pc.guard }
        else { s with pc := Pc.guard }
  | Pc.exited => s

/-- One step of the interleaved session: a `tick` is one statement of the transmit
goroutine, a `recv` one iteration of the ACK loop (body, then the guard of line 185),
`recvErr` the `return` of line 191. After a panic nothing happens any more. -/
def concStep (seq_max : Nat) (e : Event) (s : Conc) : Conc :=
  if s.panicked = true then s
  else
    match e with
    | Event.tick now => concTick seq_max now s
    | Event.recv dgram =>
      if s.ackLoop = true then
        { s with v := (ackBody seq_max dgram s.v).1,
                 sent := s.sent ++ (ackBody seq_max dgram s.v).2,
                 ackLoop := decide ((ackBody seq_max dgram s.v).1.next_biggest_ack
                   ≤ (seq_max : Int)) }
      else s
    | Event.recvErr => { s with ackLoop := false }

/-- Running the interleaved session from state `s` through a list of events. -/
def concRunFrom (seq_max : Nat) (s : Conc) (evs : List Event) : Conc :=
  evs.foldl (fun c e => concStep seq_max e c) s

/-- Running a fresh interleaved session through a list of events. -/
def concRun (seq_max : Nat) (evs : List Event) : Conc :=
  concRunFrom seq_max (concInit seq_max) evs

/-- What every state of an interleaved session satisfies. -/
structure ConcInv (N : Nat) (s : Conc) : Prop where
  nba_eq : s.v.next_biggest_ack = s.v.last_ack + 1
  last_nonneg : 0 ≤ s.v.last_ack
  guard : s.ackLoop = true → s.v.next_biggest_ack ≤ (N : Int)
  tlen : s.v.timeouts.length = N + 2
  fins : finCount s.sent = if s.v.last_ack = (N : Int) ∧ 1 ≤ N then 1 else 0
  low_pos : 1 ≤ s.v.borneInf
  low_le : s.v.borneInf ≤ s.v.next_biggest_ack
  tight : s.v.borneInfSlide = true → s.v.borneSup = s.v.borneInf + 64
  buf_len : s.v.buf.length = 32
  seq_pos : 1 ≤ s.v.next_seq

/-- The state of the interleaved session that corresponds to a state of the serialised
one: the transmit goroutine stands at its guard, or has left its loop. -/
def concOf (s : Session) : Conc :=
  { v := s.v, ackLoop := s.ackLoop,
    pc := if s.sendLoop = true then Pc.guard else Pc.exited,
    panicked := false, sent := s.sent }

/-- Some iteration of the ACK loop that the interleaved run `evs` really executed (the
loop was still running and the process alive when the datagram arrived) ended with
`last_ack = x`. -/
def ConcAckStepEndedWith (N : Nat) (evs : List Event) (x : Int) : Prop :=
  ∃ pre d post, evs = pre ++ Event.recv d :: post ∧
    (concRun N pre).panicked = false ∧ (concRun N pre).ackLoop = true ∧
    (concRun N (pre ++ [Event.recv d])).v.last_ack = x

/-- Whether every datagram the ACK loop processes while the events `evs` run from
state `s` of the interleaved session decodes to a value of at most the upper window
bound `borneSup` of the moment it is processed. -/
def concAcksWithinWindow (N : Nat) : Conc → List Event → Bool
  | _, [] => true
  | s, e :: es =>
    (match e with
     | Event.recv d =>
       !s.ackLoop || s.panicked || decide (decodeAck s.v.buf d ≤ s.v.borneSup)
     | _ => true) &&
    concAcksWithinWindow N (concStep N e s) es

/-- The client datagram `"ACK" + format06(a)` reaching the ACK loop. -/
def ackEv (a : Nat) : Event := Event.recv (ackDatagram a)

/-- Statements of the transmit goroutine executed at the clock values `c`, one after
the other. -/
def tickEvs (c : List Int) : List Event := c.map Event.tick

/-- The clock values of the statements the transmit goroutine executes from position
`pc` up to and including its next call `send(next_seq)` when `window()` returns true:
from `stall` the test of line 170 at `t0`, the guard at `t1`, `window()` at `t2` and
`send` at `t3`; from `guard` the last three; from `body` the last two. -/
def clocksToSend (pc : Pc) (t0 t1 t2 t3 : Int) : List Int :=
  match pc with
  | Pc.stall => [t0, t1, t2, t3]
  | Pc.guard => [t1, t2, t3]
  | Pc.body => [t2, t3]
  | _ => []

/-- For each list of clock values in `cs`: the datagram `"ACK" + format06(a)` reaches
the ACK loop, then the transmit goroutine executes statements at these clock values. -/
def acksThenTicks (a : Nat) : List (List Int) → List Event
  | [] => []
  | c :: cs => ackEv a :: (tickEvs c ++ acksThenTicks a cs)

/-- The process is alive, the ACK loop running, the last ACK value is `a`, `k`
duplicates of it are counted and no fast retransmit is pending. -/
structure Counting (N : Nat) (a : Nat) (k : Int) (s : Conc) : Prop where
  inv : ConcInv N s
  alive : s.panicked = false
  loop : s.ackLoop = true
  last : s.v.last_ack = (a : Int)
  same : s.v.same_ack = k
  lost : s.v.lost_ack = false

/-- Four statements of the transmit goroutine (one iteration that sends: guard,
`window()`, `send`, `next_seq++`, from whichever of them comes next), all at clock
value `t`. -/
def iterationAt (t : Int) : List Int := [t, t, t, t]

/-- Events of an interleaved session: segments 1 to 30 are written (30 iterations of
the transmit goroutine, four statements each), then four datagrams `ACK000010` leave a
fast retransmit pending. -/
def pendingScenario : List Event :=
  ticksFrom 0 250000 120 ++ acksThenTicks 10 [[], [], [], []]

/-- Events of an interleaved session: the transmit goroutine has written segments 1 to
35 and stands before the `next_seq++` of its 35th iteration. -/
def raceScenario : List Event := ticksFrom 0 250000 139

/-- Events of an interleaved session: the transmit goroutine has written segments 1 to
30 and sleeps after the guard of its 31st iteration. -/
def sleepingScenario : List Event := ticksFrom 0 250000 121

/-! ### Lemmas on segmentation -/

theorem nbseg_mul_ge (L : Nat) : L ≤ nbseg L * chunkSize := by
  unfold nbseg chunkSize
  simp only
  split <;> omega

theorem nbseg_le_of_mul_ge (L M : Nat) (h : L ≤ M * chunkSize) : nbseg L ≤ M := by
  unfold nbseg chunkSize at *
  simp only
  have h1 : L / 1494 ≤ M := by
    rw [Nat.div_le_iff_le_mul_add_pred (by norm_num)]
    omega
  split
  · rename_i hlt
    by_contra hc
    have : L / 1494 = M := by omega
    subst this
    omega
  · exact h1

theorem fmtDigits_lt (f u : Nat) (h : u < 10) : fmtDigits (f + 1) u = [48 + u] := by
  simp [fmtDigits, h]

theorem fmtDigits_ge (f u : Nat) (h : 10 ≤ u) :
    fmtDigits (f + 1) u = (48 + u % 10) :: fmtDigits f (u / 10) := by
  simp [fmtDigits, Nat.not_lt.mpr h]

theorem sprintf06_eq_zeroPad6 (s : Nat) (h : s < 1000000) : sprintf06 s = zeroPad6 s := by
  unfold sprintf06 zeroPad6
  by_cases h1 : s < 10
  · rw [fmtDigits_lt 19 _ h1]
    simp
    omega
  by_cases h2 : s < 100
  · rw [fmtDigits_ge 19 _ (by omega), fmtDigits_lt 18 _ (by omega)]
    simp
    omega
  by_cases h3 : s < 1000
  · rw [fmtDigits_ge 19 _ (by omega), fmtDigits_ge 18 _ (by omega),
      fmtDigits_lt 17 _ (by omega)]
    simp
    omega
  by_cases h4 : s < 10000
  · rw [fmtDigits_ge 19 _ (by omega), fmtDigits_ge 18 _ (by omega),
      fmtDigits_ge 17 _ (by omega), fmtDigits_lt 16 _ (by omega)]
    simp
    omega
  by_cases h5 : s < 100000
  · rw [fmtDigits_ge 19 _ (by omega), fmtDigits_ge 18 _ (by omega),
      fmtDigits_ge 17 _ (by omega), fmtDigits_ge 16 _ (by omega),
      fmtDigits_lt 15 _ (by omega)]
    simp
    omega
  · rw [fmtDigits_ge 19 _ (by omega), fmtDigits_ge 18 _ (by omega),
      fmtDigits_ge 17 _ (by omega), fmtDigits_ge 16 _ (by omega),
      fmtDigits_ge 15 _ (by omega), fmtDigits_lt 14 _ (by omega)]
    simp
    omega

theorem zeroPad6_length (s : Nat) : (zeroPad6 s).length = 6 := rfl

/-- The padded chunk stored behind the header of a packet whose read starts at `rest`. -/
theorem mkPacket_eq (i : Nat) (rest : List Nat) (hi : i + 1 < 1000000) :
    mkPacket i rest =
      (zeroPad6 (i + 1) ++ (rest.take chunkSize ++ List.replicate (chunkSize - rest.length) 0),
        rest.drop chunkSize) := by
  have hl := zeroPad6_length (i + 1)
  unfold mkPacket goCopy fileRead
  rw [sprintf06_eq_zeroPad6 _ hi]
  simp only [List.take_replicate, List.drop_replicate, List.length_replicate, hl]
  have h6 : min 6 (chunkSize + 6) = 6 := by unfold chunkSize; rfl
  have hc : chunkSize + 6 - 6 = chunkSize := by omega
  simp only [h6, hc, Nat.sub_self, List.replicate_zero, List.append_nil]
  have ht : List.take 6 (zeroPad6 (i + 1)) = zeroPad6 (i + 1) := by
    rw [List.take_of_length_le (by omega)]
  rw [ht]
  simp [hl, List.take_left', List.drop_left']

theorem fillPackets_length (n i : Nat) (rest : List Nat) :
    (fillPackets n i rest).length = n := by
  induction n generalizing i rest with
  | zero => rfl
  | succ n ih => simp [fillPackets, ih]

theorem fillPackets_getElem? (n : Nat) :
    ∀ (i : Nat) (rest : List Nat) (k : Nat), k < n → i + n < 1000000 →
      (fillPackets n i rest)[k]? =
        some (zeroPad6 (i + k + 1) ++ ((rest.drop (k * chunkSize)).take chunkSize ++
          List.replicate (chunkSize - (rest.drop (k * chunkSize)).length) 0)) := by
  induction n with
  | zero => intro i rest k hk; omega
  | succ n ih =>
    intro i rest k hk hi
    cases k with
    | zero =>
      simp only [fillPackets, List.getElem?_cons_zero]
      rw [mkPacket_eq i rest (by omega)]
      simp
    | succ k =>
      simp only [fillPackets, List.getElem?_cons_succ]
      rw [mkPacket_eq i rest (by omega)]
      rw [ih (i + 1) (rest.drop chunkSize) k (by omega) (by omega)]
      have h1 : i + 1 + k + 1 = i + (k + 1) + 1 := by omega
      have h2 : chunkSize + k * chunkSize = (k + 1) * chunkSize := by ring
      simp only [List.drop_drop, h1, h2]

/-- For a non-empty file the last segment starts strictly inside the file. -/
theorem nbseg_pred_mul_lt (L : Nat) (h : 0 < L) :
    1 ≤ nbseg L ∧ (nbseg L - 1) * chunkSize < L := by
  unfold nbseg chunkSize
  simp only
  split
  · constructor
    · omega
    · simp only [Nat.add_sub_cancel]
      assumption
  · rename_i hn
    have hd : L / 1494 * 1494 ≤ L := Nat.div_mul_le_self L 1494
    have he : L / 1494 * 1494 = L := by omega
    have hp : 1 ≤ L / 1494 := by
      by_contra hc
      have : L / 1494 = 0 := by omega
      rw [this] at he
      omega
    constructor
    · exact hp
    · have : (L / 1494 - 1) * 1494 + 1494 = L / 1494 * 1494 := by
        have hq : L / 1494 = (L / 1494 - 1) + 1 := by omega
        nth_rewrite 2 [hq]
        ring
      omega

theorem nbseg_le_max (L : Nat) (hmax : L ≤ 999999 * 1494) : nbseg L ≤ 999999 :=
  nbseg_le_of_mul_ge L 999999 (by unfold chunkSize; exact hmax)

theorem sendDatagram_segment (file : List Nat) (hpos : 0 < file.length)
    (hmax : file.length ≤ 999999 * 1494) (s : Nat) (h1 : 1 ≤ s)
    (hN : s ≤ nbseg file.length) :
    sendDatagram (buildPackets file) file.length (s : Int) =
      SendResult.wrote (zeroPad6 s ++
        (file.drop ((s - 1) * 1494)).take (min (s * 1494) file.length - (s - 1) * 1494)) := by
  obtain ⟨hN1, hlast⟩ := nbseg_pred_mul_lt file.length hpos
  have hNmax := nbseg_le_max file.length hmax
  have hge := nbseg_mul_ge file.length
  have hlen : (buildPackets file).length = nbseg file.length := fillPackets_length _ _ _
  have hget := fillPackets_getElem? (nbseg file.length) 0 file (s - 1) (by omega) (by omega)
  have hidx : ((s : Int) - 1).toNat = s - 1 := by omega
  have hs : 0 + (s - 1) + 1 = s := by omega
  rw [hs] at hget
  unfold sendDatagram
  simp only [hlen]
  rw [if_pos (by exact_mod_cast hN), if_neg (by omega), hidx]
  unfold buildPackets
  rw [hget]
  simp only
  unfold chunkSize at *
  have hdl : (file.drop ((s - 1) * 1494)).length = file.length - (s - 1) * 1494 :=
    List.length_drop _ _
  by_cases hsN : s = nbseg file.length
  · rw [if_pos (by exact_mod_cast hsN)]
    have hn : ((file.length : Int) - (((nbseg file.length : Nat) : Int) - 1) * ((1494 : Nat) : Int)) + 6
        = ((file.length - (s - 1) * 1494 + 6 : Nat) : Int) := by
      rw [← hsN]
      omega
    rw [hn]
    have hle : file.length - (s - 1) * 1494 ≤ 1494 := by omega
    unfold goSlice
    rw [if_pos]
    · simp only [Int.toNat_ofNat]
      have h6 : (zeroPad6 s).length = 6 := rfl
      rw [List.take_append_eq_append_take, h6]
      rw [List.take_of_length_le (by omega)]
      have : file.length - (s - 1) * 1494 + 6 - 6 = file.length - (s - 1) * 1494 := by omega
      rw [this]
      have hmin : min (s * 1494) file.length - (s - 1) * 1494
          = file.length - (s - 1) * 1494 := by omega
      rw [hmin]
      have htk : List.take 1494 (List.drop ((s - 1) * 1494) file)
          = List.drop ((s - 1) * 1494) file := by
        rw [List.take_of_length_le (by omega)]
      rw [htk, List.take_append_of_le_length (by omega)]
    · constructor
      · exact Int.natCast_nonneg _
      · simp only [List.length_append, List.length_take, List.length_replicate, hdl]
        have h6 : (zeroPad6 s).length = 6 := rfl
        rw [h6]
        exact_mod_cast (by omega : file.length - (s - 1) * 1494 + 6
          ≤ 6 + (min 1494 (file.length - (s - 1) * 1494)
              + (1494 - (file.length - (s - 1) * 1494))))
  · rw [if_neg (by exact_mod_cast hsN)]
    have hlt : s * 1494 ≤ (nbseg file.length - 1) * 1494 :=
      Nat.mul_le_mul_right 1494 (by omega)
    have hsm : (s - 1) * 1494 + 1494 = s * 1494 := by
      have hq : s = (s - 1) + 1 := by omega
      nth_rewrite 2 [hq]
      ring
    have hz : 1494 - (file.drop ((s - 1) * 1494)).length = 0 := by
      rw [hdl]
      omega
    have hmin : min (s * 1494) file.length - (s - 1) * 1494 = 1494 := by omega
    rw [hz, hmin]
    simp

theorem chunks_flatten (xs : List Nat) (N : Nat) :
    ((List.range N).map (fun i =>
        (xs.drop (i * 1494)).take (min ((i + 1) * 1494) xs.length - i * 1494))).flatten
      = xs.take (N * 1494) := by
  induction N with
  | zero => simp
  | succ N ih =>
    rw [List.range_succ, List.map_append, List.flatten_append, ih]
    have hN : (N + 1) * 1494 = N * 1494 + 1494 := by ring
    rw [hN, List.take_add]
    congr 1
    simp only [List.map_cons, List.map_nil, List.flatten_cons, List.flatten_nil,
      List.append_nil]
    rw [List.take_eq_take, List.length_drop]
    omega

/-! ### C1, C2 -/

/-- C1: for a non-empty file of at most 999999*1494 bytes read by sequential full reads,
the datagram written for segment `s` in `[1..N]` is the 6-digit zero-padded decimal of
`s` followed by the file bytes `[(s-1)*1494, min(s*1494, L))`; the final datagram has
`6 + (L - (N-1)*1494)` bytes with a payload of 1 to 1494 bytes; and the payloads of
segments `1..N` concatenated in order are the file. -/
theorem sendFile_segments_carry_file (file : List Nat) (hpos : 0 < file.length)
    (hmax : file.length ≤ 999999 * 1494) :
    (∀ s : Nat, 1 ≤ s → s ≤ nbseg file.length →
      sendDatagram (buildPackets file) file.length (s : Int) =
        SendResult.wrote (zeroPad6 s ++
          (file.drop ((s - 1) * 1494)).take (min (s * 1494) file.length - (s - 1) * 1494)))
    ∧ (∃ d, sendDatagram (buildPackets file) file.length (nbseg file.length : Int)
          = SendResult.wrote d
        ∧ d.length = 6 + (file.length - (nbseg file.length - 1) * 1494)
        ∧ 1 ≤ (d.drop 6).length ∧ (d.drop 6).length ≤ 1494)
    ∧ ((List.range (nbseg file.length)).map (fun i =>
          payloadOf (sendDatagram (buildPackets file) file.length ((i + 1 : Nat) : Int)))).flatten
        = file := by
  obtain ⟨hN1, hlast⟩ := nbseg_pred_mul_lt file.length hpos
  have hge := nbseg_mul_ge file.length
  unfold chunkSize at hlast hge
  refine ⟨fun s h1 hN => sendDatagram_segment file hpos hmax s h1 hN, ?_, ?_⟩
  · refine ⟨_, sendDatagram_segment file hpos hmax _ hN1 (Nat.le_refl _), ?_, ?_, ?_⟩
    · simp only [List.length_append, List.length_take, List.length_drop, zeroPad6_length]
      omega
    · simp only [List.length_append, List.length_take, List.length_drop, zeroPad6_length]
      omega
    · simp only [List.length_append, List.length_take, List.length_drop, zeroPad6_length]
      omega
  · have hmap : (List.range (nbseg file.length)).map (fun i =>
          payloadOf (sendDatagram (buildPackets file) file.length ((i + 1 : Nat) : Int)))
        = (List.range (nbseg file.length)).map (fun i =>
          (file.drop (i * 1494)).take (min ((i + 1) * 1494) file.length - i * 1494)) := by
      apply List.map_congr_left
      intro i hi
      rw [List.mem_range] at hi
      rw [sendDatagram_segment file hpos hmax (i + 1) (by omega) (by omega)]
      simp only [payloadOf, Nat.add_sub_cancel]
      rw [List.drop_left' (zeroPad6_length _)]
    rw [hmap, chunks_flatten, List.take_of_length_le hge]

/-- The hypotheses of C1 hold for a 3-byte file, whose single datagram is the header
`000001` followed by the three bytes. -/
theorem sendFile_segments_carry_file_witness :
    (∀ s : Nat, 1 ≤ s → s ≤ nbseg [7, 8, 9].length →
      sendDatagram (buildPackets [7, 8, 9]) [7, 8, 9].length (s : Int) =
        SendResult.wrote (zeroPad6 s ++
          ([7, 8, 9].drop ((s - 1) * 1494)).take
            (min (s * 1494) [7, 8, 9].length - (s - 1) * 1494)))
    ∧ (∃ d, sendDatagram (buildPackets [7, 8, 9]) [7, 8, 9].length (nbseg [7, 8, 9].length : Int)
          = SendResult.wrote d
        ∧ d.length = 6 + ([7, 8, 9].length - (nbseg [7, 8, 9].length - 1) * 1494)
        ∧ 1 ≤ (d.drop 6).length ∧ (d.drop 6).length ≤ 1494)
    ∧ ((List.range (nbseg [7, 8, 9].length)).map (fun i =>
          payloadOf (sendDatagram (buildPackets [7, 8, 9]) [7, 8, 9].length
            ((i + 1 : Nat) : Int)))).flatten
        = [7, 8, 9] :=
  sendFile_segments_carry_file [7, 8, 9] (by decide) (by decide)

/-- C2: for every file length `L`, `nbseg L` is the least `N` with `N*1494 ≥ L`
(the ceiling of `L/1494`); in particular 10 gives 1, 2988 gives 2 and 1495 gives 2. -/
theorem nbseg_is_ceiling (L : Nat) :
    L ≤ nbseg L * 1494 ∧ (∀ M : Nat, L ≤ M * 1494 → nbseg L ≤ M) ∧
      nbseg L = (L + 1493) / 1494 ∧
      nbseg 10 = 1 ∧ nbseg 2988 = 2 ∧ nbseg 1495 = 2 := by
  refine ⟨nbseg_mul_ge L, fun M h => nbseg_le_of_mul_ge L M h, ?_, by decide, by decide,
    by decide⟩
  unfold nbseg chunkSize
  simp only
  split <;> omega

/-! ### Lemmas on the `window` closure and the two loop bodies -/

theorem tdiv_bucket (n : Int) (h : 1 ≤ n) :
    Int.tdiv (n - 1) 65 * 65 + 1 ≤ n ∧ n ≤ Int.tdiv (n - 1) 65 * 65 + 65 := by
  rw [Int.tdiv_eq_ediv (by omega) (by omega)]
  omega

theorem window_frame (v : Vars) :
    (window v).1.last_ack = v.last_ack ∧
    (window v).1.next_biggest_ack = v.next_biggest_ack ∧
    (window v).1.same_ack = v.same_ack ∧
    (window v).1.timeouts = v.timeouts ∧
    (window v).1.buf = v.buf ∧
    (window v).1.lost_ack = false ∧
    (window v).1.borneSup = (window v).1.borneInf + 64 ∧
    v.next_biggest_ack ≤ (window v).1.next_seq ∧
    ((window v).2 = true ↔
      ((window v).1.borneInf ≤ (window v).1.next_seq ∧
        (window v).1.next_seq ≤ (window v).1.borneSup)) := by
  unfold window winSize
  simp only
  split_ifs <;> simp_all <;> omega

theorem send_frame (N : Nat) (c : Bool) (now n : Int) (v v1 : Vars) (out : List Datagram)
    (h : send N c now n v = some (v1, out)) :
    v1.last_ack = v.last_ack ∧ v1.next_biggest_ack = v.next_biggest_ack ∧
    v1.same_ack = v.same_ack ∧ v1.buf = v.buf ∧
    v1.timeouts.length = v.timeouts.length ∧
    v1.borneInf = v.borneInf ∧ v1.borneSup = v.borneSup ∧
    v1.borneInfSlide = v.borneInfSlide ∧ v1.lost_ack = v.lost_ack ∧
    v1.next_seq = v.next_seq ∧
    (∀ d ∈ out, d = Datagram.data n ∧ n ≤ (N : Int) ∧ c = true) := by
  unfold send at h
  split_ifs at h <;> simp at h <;> obtain ⟨h1, h2⟩ := h <;> subst h1 <;> subst h2 <;> simp_all

theorem transmitBody_frame (N : Nat) (c : Bool) (now : Int) (v v1 : Vars)
    (out : List Datagram) (h : transmitBody N c now v = some (v1, out)) :
    v1.last_ack = v.last_ack ∧ v1.next_biggest_ack = v.next_biggest_ack ∧
    v1.same_ack = v.same_ack ∧ v1.buf = v.buf ∧
    v1.timeouts.length = v.timeouts.length ∧
    v1.borneInf = (window v).1.borneInf ∧ v1.borneSup = (window v).1.borneSup ∧
    v1.borneInfSlide = (window v).1.borneInfSlide ∧ v1.lost_ack = false ∧
    (∀ d ∈ out, d = Datagram.data (window v).1.next_seq ∧ (window v).2 = true ∧
      (window v).1.next_seq ≤ (N : Int) ∧ c = true) := by
  obtain ⟨w1, w2, w3, w4, w5, w6, -, -, -⟩ := window_frame v
  unfold transmitBody at h
  simp only at h
  split at h
  · rename_i hw
    split at h
    · simp at h
    · rename_i u o hs
      simp only [Option.some.injEq, Prod.mk.injEq] at h
      obtain ⟨h1, h2⟩ := h
      obtain ⟨s1, s2, s3, s4, s5, s6, s7, s8, s9, s10, s11⟩ := send_frame _ _ _ _ _ _ _ hs
      subst h1 h2
      simp only
      refine ⟨by omega, by omega, by omega, ?_, ?_, s6, s7, s8, ?_, ?_⟩
      · rw [s4, w5]
      · rw [s5, w4]
      · rw [s9, w6]
      · intro d hd
        obtain ⟨e1, e2, e3⟩ := s11 d hd
        exact ⟨e1, hw, e2, e3⟩
  · split at h
    · simp at h
    · split at h
      · simp at h
      · split at h <;> simp only [Option.some.injEq, Prod.mk.injEq] at h <;>
          obtain ⟨h1, h2⟩ := h <;> subst h1 h2 <;> simp_all

theorem ackUpdate_frame (N : Nat) (a : Int) (v : Vars) :
    (ackUpdate N a v).1.borneInf = v.borneInf ∧
    (ackUpdate N a v).1.borneSup = v.borneSup ∧
    (ackUpdate N a v).1.borneInfSlide = v.borneInfSlide ∧
    (ackUpdate N a v).1.timeouts = v.timeouts ∧
    (ackUpdate N a v).1.buf = v.buf ∧
    (ackUpdate N a v).1.last_ack = (if v.last_ack ≤ a then a else v.last_ack) ∧
    (ackUpdate N a v).1.next_biggest_ack =
      (if v.next_biggest_ack ≤ (ackUpdate N a v).1.last_ack
        then (ackUpdate N a v).1.last_ack + 1 else v.next_biggest_ack) ∧
    (ackUpdate N a v).2 =
      (if (ackUpdate N a v).1.last_ack = (N : Int) then [Datagram.fin] else []) := by
  unfold ackUpdate
  simp only
  split_ifs <;> simp_all

/-! ### Lemmas on sessions -/

theorem finCount_append_data (sent out : List Datagram)
    (h : ∀ d ∈ out, ∃ n, d = Datagram.data n) : finCount (sent ++ out) = finCount sent := by
  unfold finCount
  rw [List.count_append]
  have : List.count Datagram.fin out = 0 := by
    rw [List.count_eq_zero]
    intro hm
    obtain ⟨n, hn⟩ := h _ hm
    cases hn
  omega

theorem initSession_inv (N : Nat) : Inv N (initSession N) := by
  constructor <;> simp [initSession, initVars, finCount]
  split_ifs with h
  · omega
  · rfl

theorem step_tick_some (N : Nat) (now : Int) (s s1 : Session)
    (h : step N (Event.tick now) s = some s1) :
    (s1 = s ∨ s1 = { s with sendLoop := false }) ∨
    (s.sendLoop = true ∧ s.v.next_biggest_ack ≤ (N : Int) ∧
      ∃ v1 out, transmitBody N s.ackLoop now s.v = some (v1, out) ∧
        s1 = { s with v := v1, sent := s.sent ++ out }) := by
  unfold step at h
  simp only at h
  split_ifs at h with h1 h2
  · split at h
    · simp at h
    · rename_i v1 out ht
      simp only [Option.some.injEq] at h
      exact Or.inr ⟨h1, h2, v1, out, ht, h.symm⟩
  · simp only [Option.some.injEq] at h
    exact Or.inl (Or.inr h.symm)
  · simp only [Option.some.injEq] at h
    exact Or.inl (Or.inl h.symm)

theorem step_recv_some (N : Nat) (d : List Nat) (s s1 : Session)
    (h : step N (Event.recv d) s = some s1) :
    (s.ackLoop = false ∧ s1 = s) ∨
    (s.ackLoop = true ∧
      s1 = { s with v := (ackBody N d s.v).1, sent := s.sent ++ (ackBody N d s.v).2,
                    ackLoop := decide ((ackBody N d s.v).1.next_biggest_ack ≤ (N : Int)) }) := by
  unfold step at h
  simp only at h
  split_ifs at h with h1
  · simp only [Option.some.injEq] at h
    exact Or.inr ⟨h1, h.symm⟩
  · simp only [Option.some.injEq] at h
    exact Or.inl ⟨by simpa using h1, h.symm⟩

theorem step_recvErr_some (N : Nat) (s s1 : Session)
    (h : step N Event.recvErr s = some s1) :
    s1 = s ∨ s1 = { s with ackLoop := false } := by
  unfold step at h
  simp only at h
  split_ifs at h <;> simp only [Option.some.injEq] at h
  · exact Or.inr h.symm
  · exact Or.inl h.symm

theorem window_low (v : Vars) (h1 : 1 ≤ v.next_biggest_ack) (hp : 1 ≤ v.borneInf)
    (hl : v.borneInf ≤ v.next_biggest_ack)
    (ht : v.borneInfSlide = true → v.borneSup = v.borneInf + 64) :
    1 ≤ (window v).1.borneInf ∧ (window v).1.borneInf ≤ v.next_biggest_ack := by
  obtain ⟨b1, b2⟩ := tdiv_bucket v.next_biggest_ack h1
  have hq : 0 ≤ Int.tdiv (v.next_biggest_ack - 1) 65 := Int.tdiv_nonneg (by omega) (by omega)
  unfold window winSize
  simp only
  split_ifs <;> simp_all <;> omega

theorem ackBody_frame (N : Nat) (d : List Nat) (v : Vars) :
    (ackBody N d v).1.borneInf = v.borneInf ∧
    (ackBody N d v).1.borneSup = v.borneSup ∧
    (ackBody N d v).1.borneInfSlide = v.borneInfSlide ∧
    (ackBody N d v).1.timeouts = v.timeouts ∧
    (ackBody N d v).1.last_ack
      = (if v.last_ack ≤ decodeAck v.buf d then decodeAck v.buf d else v.last_ack) ∧
    (ackBody N d v).1.next_biggest_ack =
      (if v.next_biggest_ack ≤ (ackBody N d v).1.last_ack
        then (ackBody N d v).1.last_ack + 1 else v.next_biggest_ack) ∧
    (ackBody N d v).2 =
      (if (ackBody N d v).1.last_ack = (N : Int) then [Datagram.fin] else []) := by
  obtain ⟨a1, a2, a3, a4, -, a6, a7, a8⟩ :=
    ackUpdate_frame N (decodeAck v.buf d) { v with buf := goCopy v.buf d }
  unfold ackBody
  exact ⟨a1, a2, a3, a4, a6, a7, a8⟩

theorem step_inv (N : Nat) (e : Event) (s s1 : Session) (hi : Inv N s)
    (h : step N e s = some s1) : Inv N s1 := by
  cases e with
  | tick now =>
    rcases step_tick_some N now s s1 h with (h1 | h1) | ⟨-, hg, v1, out, ht, h1⟩
    · subst h1
      exact hi
    · subst h1
      exact ⟨hi.nba_eq, hi.last_nonneg, hi.guard, hi.tlen, hi.fins, hi.low_pos, hi.low_le,
        hi.tight⟩
    · obtain ⟨t1, t2, -, -, t5, t6, t7, -, -, t10⟩ := transmitBody_frame _ _ _ _ _ _ ht
      have hnba : 1 ≤ s.v.next_biggest_ack := by
        have := hi.nba_eq
        have := hi.last_nonneg
        omega
      obtain ⟨l1, l2⟩ := window_low s.v hnba hi.low_pos hi.low_le hi.tight
      obtain ⟨-, -, -, -, -, -, w7, -, -⟩ := window_frame s.v
      subst h1
      refine ⟨?_, ?_, ?_, ?_, ?_, ?_, ?_, ?_⟩
      · simp only
        rw [t1, t2]
        exact hi.nba_eq
      · simp only
        rw [t1]
        exact hi.last_nonneg
      · simp only
        rw [t2]
        exact hi.guard
      · simp only
        rw [t5]
        exact hi.tlen
      · simp only
        rw [t1, finCount_append_data _ _ (fun d hd => ⟨_, (t10 d hd).1⟩)]
        exact hi.fins
      · simp only
        rw [t6]
        exact l1
      · simp only
        rw [t6, t2]
        exact l2
      · simp only
        intro _
        rw [t7, t6]
        exact w7
  | recv d =>
    rcases step_recv_some N d s s1 h with ⟨-, h1⟩ | ⟨ha, h1⟩
    · subst h1
      exact hi
    · obtain ⟨a1, a2, a3, a4, a5, a6, a7⟩ := ackBody_frame N d s.v
      have e1 := hi.nba_eq
      have e2 := hi.last_nonneg
      have e3 := hi.guard ha
      have e4 := hi.fins
      subst h1
      refine ⟨?_, ?_, ?_, ?_, ?_, ?_, ?_, ?_⟩
      · simp only
        rw [a6, a5]
        split_ifs <;> omega
      · simp only
        rw [a5]
        split_ifs <;> omega
      · simp only [decide_eq_true_eq]
        exact fun hle => hle
      · simp only
        rw [a4]
        exact hi.tlen
      · simp only
        rw [a7]
        have hz : finCount s.sent = 0 := by
          rw [e4, if_neg]
          omega
        by_cases hN : (ackBody N d s.v).1.last_ack = (N : Int)
        · have hN1 : 1 ≤ N := by
            rw [a5] at hN
            split_ifs at hN <;> omega
          rw [if_pos hN, if_pos ⟨hN, hN1⟩]
          unfold finCount at *
          rw [List.count_append, hz]
          rfl
        · rw [if_neg hN, if_neg (fun hc => hN hc.1), List.append_nil]
          exact hz
      · simp only
        rw [a1]
        exact hi.low_pos
      · simp only
        rw [a1, a6, a5]
        have := hi.low_le
        split_ifs <;> omega
      · simp only
        rw [a3, a2, a1]
        exact hi.tight
  | recvErr =>
    rcases step_recvErr_some N s s1 h with h1 | h1
    · subst h1
      exact hi
    · subst h1
      exact ⟨hi.nba_eq, hi.last_nonneg, fun hc => by simp at hc, hi.tlen, hi.fins,
        hi.low_pos, hi.low_le, hi.tight⟩

theorem runFrom_inv (N : Nat) (evs : List Event) :
    ∀ s s1, Inv N s → runFrom N s evs = some s1 → Inv N s1 := by
  induction evs with
  | nil =>
    intro s s1 hi h
    simp only [runFrom, Option.some.injEq] at h
    subst h
    exact hi
  | cons e es ih =>
    intro s s1 hi h
    unfold runFrom at h
    split at h
    · simp at h
    · rename_i s2 hs
      exact ih s2 s1 (step_inv N e s s2 hi hs) h

theorem run_inv (N : Nat) (evs : List Event) (s : Session) (h : run N evs = some s) :
    Inv N s :=
  runFrom_inv N evs _ _ (initSession_inv N) h

/-- A step other than an executed ACK step leaves `last_ack` and `ackLoop = false` alone. -/
theorem step_last_ack_frozen (N : Nat) (e : Event) (s s1 : Session)
    (h : step N e s = some s1) (hoff : s.ackLoop = false ∨ ∀ d, e ≠ Event.recv d) :
    s1.v.last_ack = s.v.last_ack ∧ (s.ackLoop = false → s1.ackLoop = false) := by
  cases e with
  | tick now =>
    rcases step_tick_some N now s s1 h with (h1 | h1) | ⟨-, -, v1, out, ht, h1⟩
    · subst h1
      exact ⟨rfl, id⟩
    · subst h1
      exact ⟨rfl, id⟩
    · obtain ⟨t1, -⟩ := transmitBody_frame _ _ _ _ _ _ ht
      subst h1
      exact ⟨t1, id⟩
  | recv d =>
    rcases step_recv_some N d s s1 h with ⟨-, h1⟩ | ⟨ha, h1⟩
    · subst h1
      exact ⟨rfl, id⟩
    · rcases hoff with hoff | hoff
      · rw [ha] at hoff
        cases hoff
      · exact absurd rfl (hoff d)
  | recvErr =>
    rcases step_recvErr_some N s s1 h with h1 | h1
    · subst h1
      exact ⟨rfl, id⟩
    · subst h1
      exact ⟨rfl, fun _ => rfl⟩

/-! ### C4 -/

theorem runFrom_last_ack_le (N : Nat) (x : Int) (evs : List Event) :
    ∀ s s1, s.v.last_ack ≤ x → acksAtMost N x s evs = true →
      runFrom N s evs = some s1 → s1.v.last_ack ≤ x := by
  induction evs with
  | nil =>
    intro s s1 hl _ h
    simp only [runFrom, Option.some.injEq] at h
    subst h
    exact hl
  | cons e es ih =>
    intro s s1 hl hb h
    unfold runFrom at h
    split at h
    · simp at h
    · rename_i s2 hs
      unfold acksAtMost at hb
      rw [hs] at hb
      simp only [Bool.and_eq_true] at hb
      obtain ⟨hb1, hb2⟩ := hb
      refine ih s2 s1 ?_ hb2 h
      by_cases hrun : s.ackLoop = true ∧ ∃ d, e = Event.recv d
      · obtain ⟨ha, d, hd⟩ := hrun
        subst hd
        simp only [ha, Bool.not_true, Bool.false_or, decide_eq_true_eq] at hb1
        rcases step_recv_some N d s s2 hs with ⟨hf, -⟩ | ⟨-, h1⟩
        · rw [ha] at hf
          cases hf
        · obtain ⟨-, -, -, -, a5, -, -⟩ := ackBody_frame N d s.v
          rw [h1]
          simp only
          rw [a5]
          split_ifs <;> omega
      · have hoff : s.ackLoop = false ∨ ∀ d, e ≠ Event.recv d := by
          by_cases ha : s.ackLoop = true
          · right
            intro d hd
            exact hrun ⟨ha, d, hd⟩
          · left
            simpa using ha
        obtain ⟨f1, -⟩ := step_last_ack_frozen N e s s2 hs hoff
        rw [f1]
        exact hl

/-- C4 (as stated, refuted): with an empty file (`N = 0`) both loops end at their first
guard test with `next_biggest_ack = 1 > 0` and no `FIN` written; and with `N = 2` the
datagram `ACK000005` ends both loops with `next_biggest_ack = 6`, not `N + 1`, and no
`FIN` written. -/
theorem termination_fin_counterexample :
    (∃ s, run 0 [Event.tick 0] = some s ∧ s.ackLoop = false ∧ s.sendLoop = false ∧
      (0 : Int) < s.v.next_biggest_ack ∧ finCount s.sent = 0) ∧
    (∃ s, run 2 [Event.tick 0, Event.recv (ackDatagram 5), Event.tick 1] = some s ∧
      s.ackLoop = false ∧ s.sendLoop = false ∧ (2 : Int) < s.v.next_biggest_ack ∧
      s.v.next_biggest_ack = 6 ∧ finCount s.sent = 0) := by
  constructor
  · exact ⟨_, rfl, rfl, rfl, by decide, rfl⟩
  · exact ⟨_, rfl, rfl, rfl, by decide, rfl, rfl⟩

/-- C4 (amended): for every `N ≥ 1` and every run in which no processed datagram
decodes to more than `N`, whenever both loops have terminated because
`next_biggest_ack > N`, `next_biggest_ack = N + 1` and exactly one `FIN` has been
written. -/
theorem termination_fin (N : Nat) (hN : 1 ≤ N) (evs : List Event) (s : Session)
    (hacks : acksAtMost N N (initSession N) evs = true)
    (hrun : run N evs = some s)
    (hterm : s.ackLoop = false ∧ s.sendLoop = false)
    (hgt : (N : Int) < s.v.next_biggest_ack) :
    s.v.next_biggest_ack = (N : Int) + 1 ∧ finCount s.sent = 1 := by
  obtain ⟨-, -⟩ := hterm
  have hi := run_inv N evs s hrun
  have hle : s.v.last_ack ≤ (N : Int) :=
    runFrom_last_ack_le N N evs (initSession N) s
      (by simp only [initSession, initVars]; omega) hacks hrun
  have hnba := hi.nba_eq
  have hl : s.v.last_ack = (N : Int) := by omega
  refine ⟨by omega, ?_⟩
  rw [hi.fins, if_pos ⟨hl, hN⟩]

/-- The hypotheses of the amended C4 hold for a one-packet file: segment 1 is sent,
`ACK000001` arrives, and the transmit loop sees its guard fail. -/
theorem termination_fin_witness :
    (∃ s, run 1 [Event.tick 0, Event.recv (ackDatagram 1), Event.tick 1] = some s ∧
      s.v.next_biggest_ack = ((1 : Nat) : Int) + 1 ∧ finCount s.sent = 1) :=
  ⟨_, rfl, termination_fin 1 (by decide)
    [Event.tick 0, Event.recv (ackDatagram 1), Event.tick 1] _ rfl rfl ⟨rfl, rfl⟩
    (by decide)⟩

/-! ### C5, C6 -/

/-- C6: for every state and every step of the sender core (an ACK step for any decoded
value, or a transmit step), `last_ack` and `next_biggest_ack` after the step are at
least their values before it. -/
theorem progress_monotone (N : Nat) (st : CoreStep) (v v1 : Vars) (out : List Datagram)
    (h : coreStep N st v = some (v1, out)) :
    v.last_ack ≤ v1.last_ack ∧ v.next_biggest_ack ≤ v1.next_biggest_ack := by
  cases st with
  | ack a =>
    simp only [coreStep, Option.some.injEq] at h
    obtain ⟨-, -, -, -, -, a6, a7, -⟩ := ackUpdate_frame N a v
    rw [h] at a6 a7
    simp only at a6 a7
    rw [a7, a6]
    split_ifs <;> omega
  | transmit c now =>
    simp only [coreStep] at h
    obtain ⟨t1, t2, -⟩ := transmitBody_frame _ _ _ _ _ _ h
    omega

/-- The hypothesis of C6 holds for the ACK step with value 7 from the initial state of
a 200-packet session, which raises both variables. -/
theorem progress_monotone_witness :
    (initVars 200).last_ack ≤ (ackUpdate 200 7 (initVars 200)).1.last_ack ∧
      (initVars 200).next_biggest_ack ≤ (ackUpdate 200 7 (initVars 200)).1.next_biggest_ack :=
  progress_monotone 200 (CoreStep.ack 7) (initVars 200) _ _ rfl

/-! ### A bound on the recomputed window -/

theorem window_upper (v : Vars) (h1 : 1 ≤ v.next_biggest_ack)
    (ht : v.borneInfSlide = true → v.borneSup = v.borneInf + 64)
    (hu : v.next_biggest_ack ≤ v.borneSup + 1) :
    v.next_biggest_ack ≤ (window v).1.borneSup + 1 := by
  obtain ⟨b1, b2⟩ := tdiv_bucket v.next_biggest_ack h1
  unfold window winSize
  simp only
  split_ifs <;> simp_all <;> omega

/-! ### The ACK value 0 against a positive `last_ack` -/

theorem ackUpdate_zero_ignored (N : Nat) (v : Vars) (h1 : 0 < v.last_ack)
    (h2 : v.last_ack < v.next_biggest_ack) (h3 : v.next_biggest_ack ≤ (N : Int)) :
    ackUpdate N 0 v = (v, []) := by
  have e1 : ¬ ((0 : Int) = v.last_ack) := by omega
  have e2 : ¬ ((0 : Int) ≥ v.last_ack) := by omega
  have e3 : ¬ (v.last_ack ≥ v.next_biggest_ack) := by omega
  have e4 : ¬ (v.last_ack = (N : Int)) := by omega
  unfold ackUpdate
  simp only [if_neg e1, if_neg e2, if_neg e3, if_neg e4]

/-! ### C9 -/

theorem allocatedPorts_append (xs ys : List ListenerAction) :
    allocatedPorts (xs ++ ys) = allocatedPorts xs ++ allocatedPorts ys := by
  induction xs with
  | nil => rfl
  | cons a as ih =>
    cases a with
    | synAck p => simp [allocatedPorts, ih]
    | spawnFile p => simp [allocatedPorts, ih]

theorem listenerStep_cases (st : Listener) (e : ListenerEvent) :
    (allocatedPorts (listenerStep st e).2 = [st.new_port] ∧
      (listenerStep st e).1.new_port
        = (if st.new_port + 1 = 9999 then 1024 else st.new_port + 1)) ∨
    (allocatedPorts (listenerStep st e).2 = [] ∧
      (listenerStep st e).1.new_port = st.new_port) := by
  by_cases hr : st.running = true
  · cases e with
    | readErr => simp [listenerStep, hr, allocatedPorts]
    | dgram srcPort payload =>
      simp only [listenerStep, hr, if_true]
      cases st.current_conn.lookup srcPort with
      | none =>
        by_cases hc : containsBytes [83, 89, 78] (goCopy st.buffer payload) = true <;>
          simp [hc, allocatedPorts]
      | some port =>
        by_cases hc : containsBytes [65, 67, 75] (goCopy st.buffer payload) = true <;>
          simp [hc, allocatedPorts]
  · simp [listenerStep, hr, allocatedPorts]

theorem listenerRun_ports (evs : List ListenerEvent) :
    ∀ (st : Listener) (n : Nat), st.new_port = 1024 + (((n % 8975 : Nat)) : Int) →
      ∀ (k : Nat) (p : Int), (allocatedPorts (listenerRun st evs).2)[k]? = some p →
        p = 1024 + ((((n + k) % 8975 : Nat)) : Int) := by
  induction evs with
  | nil =>
    intro st n _ k p h
    simp [listenerRun, allocatedPorts] at h
  | cons e es ih =>
    intro st n hst k p h
    simp only [listenerRun, allocatedPorts_append] at h
    rcases listenerStep_cases st e with ⟨c1, c2⟩ | ⟨c1, c2⟩
    · rw [c1] at h
      cases k with
      | zero =>
        simp only [List.singleton_append, List.getElem?_cons_zero, Option.some.injEq] at h
        rw [← h, hst]
        simp
      | succ k =>
        simp only [List.singleton_append, List.getElem?_cons_succ] at h
        have hst1 : (listenerStep st e).1.new_port = 1024 + ((((n + 1) % 8975 : Nat)) : Int) := by
          rw [c2, hst]
          split_ifs <;> omega
        have := ih _ (n + 1) hst1 k p h
        rw [this]
        have : n + 1 + k = n + (k + 1) := by omega
        rw [this]
    · rw [c1] at h
      simp only [List.nil_append] at h
      exact ih _ n (by rw [c2, hst]) k p h

/-- C9: for every sequence of datagrams and read errors at the listener and every `k`,
the `(k+1)`-th port it allocates and announces in a `SYN-ACK` is `1024 + (k mod 8975)`;
so it lies in `[1024..9998]`, and the allocation following 9998 is 1024. -/
theorem port_allocation (evs : List ListenerEvent) (k : Nat) (p : Int)
    (h : (allocatedPorts (listenerRun initListener evs).2)[k]? = some p) :
    p = 1024 + (((k % 8975 : Nat)) : Int) ∧ 1024 ≤ p ∧ p ≤ 9998 ∧
      (p = 9998 → ∀ q, (allocatedPorts (listenerRun initListener evs).2)[k + 1]? = some q →
        q = 1024) := by
  have hp := listenerRun_ports evs initListener 0 rfl k p h
  rw [Nat.zero_add] at hp
  refine ⟨hp, by omega, by omega, ?_⟩
  intro h9 q hq
  have hq1 := listenerRun_ports evs initListener 0 rfl (k + 1) q hq
  rw [Nat.zero_add] at hq1
  omega

set_option maxRecDepth 100000 in
/-- The hypothesis of C9 holds for two `SYN` datagrams from source ports 5000 and 5001:
the second allocation (`k = 1`) is port 1025. -/
theorem port_allocation_witness :
    (1025 : Int) = 1024 + (((1 % 8975 : Nat)) : Int) ∧ (1024 : Int) ≤ 1025 ∧
      (1025 : Int) ≤ 9998 ∧
      ((1025 : Int) = 9998 → ∀ q, (allocatedPorts (listenerRun initListener
          [ListenerEvent.dgram 5000 [83, 89, 78], ListenerEvent.dgram 5001 [83, 89, 78]]).2)[1 + 1]?
            = some q → q = 1024) :=
  port_allocation [ListenerEvent.dgram 5000 [83, 89, 78], ListenerEvent.dgram 5001 [83, 89, 78]]
    1 1025 rfl

/-! ### C10 -/

/-- An ACK step with a value above `last_ack` stores it in `last_ack` and leaves
`same_ack` as it was: no branch of lines 202-215 resets the counter there. -/
theorem ackUpdate_greater (N : Nat) (a : Int) (v : Vars) (h : v.last_ack < a) :
    (ackUpdate N a v).1.last_ack = a ∧ (ackUpdate N a v).1.same_ack = v.same_ack := by
  have e1 : ¬ (a = v.last_ack) := by omega
  have e2 : a ≥ v.last_ack := by omega
  unfold ackUpdate
  simp only [if_neg e1, if_pos e2]
  split_ifs <;> exact ⟨rfl, rfl⟩

set_option maxRecDepth 8000 in
/-- C10 (the code at the failing input): in a 200-packet session, after the first
transmit step the datagrams `ACK000001` (three times) leave `last_ack = 1` and
`same_ack = 2`; the strictly greater `ACK000002` sets `last_ack = 2` but leaves
`same_ack = 2`; and the first duplicate `ACK000002` already triggers fast retransmit
(`lost_ack` set, `next_seq = 3`, `same_ack = 0`). -/
theorem greater_ack_keeps_duplicate_count :
    ∃ s0 s1 s2,
      run 200 [Event.tick 0, Event.recv (ackDatagram 1), Event.recv (ackDatagram 1),
        Event.recv (ackDatagram 1)] = some s0 ∧
      s0.v.last_ack = 1 ∧ s0.v.same_ack = 2 ∧ s0.v.lost_ack = false ∧
      decodeAck s0.v.buf (ackDatagram 2) = 2 ∧
      step 200 (Event.recv (ackDatagram 2)) s0 = some s1 ∧
      s1.v.last_ack = 2 ∧ s1.v.same_ack = 2 ∧ s1.v.lost_ack = false ∧
      step 200 (Event.recv (ackDatagram 2)) s1 = some s2 ∧
      s2.v.lost_ack = true ∧ s2.v.next_seq = 3 ∧ s2.v.same_ack = 0 :=
  ⟨_, _, _, rfl, rfl, rfl, rfl, rfl, rfl, rfl, rfl, rfl, rfl, rfl, rfl, rfl⟩

/-! ### C13 -/

theorem window_eq_spec (v : Vars) :
    (windowStateOf (window v).1, (window v).2)
      = specRecompute 65 (specAdvance (windowStateOf v)) := by
  unfold window specRecompute specWinLow specAdvance windowStateOf winSize
  simp only
  split_ifs <;> simp_all

set_option maxRecDepth 8000 in
/-- C13: for every state, the `window` closure is the specification's recomputation
applied after the advance of `nextSeq` that `window` itself performs (lines 109-111):
`winLow` is `nextBiggestAck` when `lostAckFlag` is set (flag cleared, `lowSlid` set),
else `((nextBiggestAck - 1) div 65) * 65 + 1` when `lowSlid` is not set, else it grows
by 65 iff the previous `winHigh < nextBiggestAck`; `winHigh = winLow + 65 - 1`; the
result is true iff `nextSeq` lies in `[winLow, winHigh]`; the other variables are left
alone. In a 200-packet session without fast retransmit the window is `[66..130]` after
ACK 65, `[131..195]` after ACK 130 and `[196..260]` after ACK 195. -/
theorem window_refines_spec (v : Vars) :
    (windowStateOf (window v).1, (window v).2)
        = specRecompute 65 (specAdvance (windowStateOf v)) ∧
    (window v).1.borneSup = (window v).1.borneInf + 65 - 1 ∧
    ((window v).2 = true ↔
      ((window v).1.borneInf ≤ (window v).1.next_seq ∧
        (window v).1.next_seq ≤ (window v).1.borneSup)) ∧
    ((window v).1.last_ack = v.last_ack ∧ (window v).1.same_ack = v.same_ack ∧
      (window v).1.timeouts = v.timeouts ∧ (window v).1.buf = v.buf) ∧
    (1 ≤ v.next_biggest_ack →
      Int.tdiv (v.next_biggest_ack - 1) 65 = (v.next_biggest_ack - 1) / 65) ∧
    (∃ s1 s2 s3,
      run 200 [Event.tick 0, Event.recv (ackDatagram 65), Event.tick 1] = some s1 ∧
      s1.v.borneInfSlide = false ∧ s1.v.borneInf = 66 ∧ s1.v.borneSup = 130 ∧
      runFrom 200 s1 [Event.recv (ackDatagram 130), Event.tick 2] = some s2 ∧
      s2.v.borneInfSlide = false ∧ s2.v.borneInf = 131 ∧ s2.v.borneSup = 195 ∧
      runFrom 200 s2 [Event.recv (ackDatagram 195), Event.tick 3] = some s3 ∧
      s3.v.borneInfSlide = false ∧ s3.v.borneInf = 196 ∧ s3.v.borneSup = 260) := by
  obtain ⟨w1, -, w3, w4, w5, -, w7, -, w9⟩ := window_frame v
  refine ⟨window_eq_spec v, by omega, w9, ⟨w1, w3, w4, w5⟩, ?_, ?_⟩
  · intro h
    exact Int.tdiv_eq_ediv (by omega) (by omega)
  · exact ⟨_, _, _, rfl, rfl, rfl, rfl, rfl, rfl, rfl, rfl, rfl, rfl, rfl, rfl⟩

/-! ### C14 -/

/-- The body of the ACK loop is the state update for the decoded value, next to the
overwritten receive buffer. -/
theorem ackBody_eq_ackUpdate (N : Nat) (d : List Nat) (v : Vars) :
    (ackBody N d v).1
        = { (ackUpdate N (decodeAck v.buf d) v).1 with buf := goCopy v.buf d } ∧
      (ackBody N d v).2 = (ackUpdate N (decodeAck v.buf d) v).2 := by
  unfold ackBody ackUpdate
  simp only
  split_ifs <;> exact ⟨rfl, rfl⟩

/-- C14: in every reachable state and for every decoded ACK value `a ≤ last_ack`, the
ACK step leaves `next_biggest_ack`, `borneInf` and `borneSup` unchanged; it changes at
most `next_seq`, `lost_ack` and `same_ack` (the step on which the third duplicate
triggers fast retransmit included); and when `a < last_ack` it changes nothing. -/
theorem stale_ack_frame (N : Nat) (evs : List Event) (s : Session) (a : Int)
    (hrun : run N evs = some s) (ha : a ≤ s.v.last_ack) :
    (ackUpdate N a s.v).1.next_biggest_ack = s.v.next_biggest_ack ∧
    (ackUpdate N a s.v).1.borneInf = s.v.borneInf ∧
    (ackUpdate N a s.v).1.borneSup = s.v.borneSup ∧
    (ackUpdate N a s.v).1
      = { s.v with next_seq := (ackUpdate N a s.v).1.next_seq,
                   lost_ack := (ackUpdate N a s.v).1.lost_ack,
                   same_ack := (ackUpdate N a s.v).1.same_ack } ∧
    (a < s.v.last_ack → (ackUpdate N a s.v).1 = s.v) := by
  have hi := run_inv N evs s hrun
  have hnba := hi.nba_eq
  have e3 : ¬ (s.v.last_ack ≥ s.v.next_biggest_ack) := by omega
  rcases (by omega : a < s.v.last_ack ∨ a = s.v.last_ack) with hlt | heq
  · have e1 : ¬ (a = s.v.last_ack) := by omega
    have e2 : ¬ (a ≥ s.v.last_ack) := by omega
    have hu : (ackUpdate N a s.v).1 = s.v := by
      unfold ackUpdate
      simp only [if_neg e1, if_neg e2, if_neg e3]
    rw [hu]
    exact ⟨rfl, rfl, rfl, rfl, fun _ => rfl⟩
  · subst heq
    refine ⟨?_, ?_, ?_, ?_, fun h => absurd h (by omega)⟩
    all_goals unfold ackUpdate
    all_goals simp only [if_true, ge_iff_le, le_refl]
    all_goals split_ifs <;> rfl

set_option maxRecDepth 8000 in
/-- The hypothesis of C14 holds in a 200-packet session after `ACK000005` for the
decoded value 3. -/
theorem stale_ack_frame_witness :
    ∃ s, run 200 [Event.tick 0, Event.recv (ackDatagram 5)] = some s ∧
      (ackUpdate 200 3 s.v).1.next_biggest_ack = s.v.next_biggest_ack ∧
      (ackUpdate 200 3 s.v).1.borneInf = s.v.borneInf ∧
      (ackUpdate 200 3 s.v).1.borneSup = s.v.borneSup ∧
      (ackUpdate 200 3 s.v).1
        = { s.v with next_seq := (ackUpdate 200 3 s.v).1.next_seq,
                     lost_ack := (ackUpdate 200 3 s.v).1.lost_ack,
                     same_ack := (ackUpdate 200 3 s.v).1.same_ack } ∧
      ((3 : Int) < s.v.last_ack → (ackUpdate 200 3 s.v).1 = s.v) :=
  ⟨_, rfl, stale_ack_frame 200 [Event.tick 0, Event.recv (ackDatagram 5)] _ 3 rfl (by decide)⟩

/-! ### Lemmas on decoding an acknowledgement and on the duplicate counter -/

theorem sscanfInt_digits (b5 b4 b3 b2 b1 b0 : Nat)
    (h5 : 48 ≤ b5 ∧ b5 ≤ 57) (h4 : 48 ≤ b4 ∧ b4 ≤ 57) (h3 : 48 ≤ b3 ∧ b3 ≤ 57)
    (h2 : 48 ≤ b2 ∧ b2 ≤ 57) (h1 : 48 ≤ b1 ∧ b1 ≤ 57) (h0 : 48 ≤ b0 ∧ b0 ≤ 57) :
    sscanfInt [b5, b4, b3, b2, b1, b0] = some (digitsValue [b5, b4, b3, b2, b1, b0]) := by
  have hsp : spaceRuneLen [b5, b4, b3, b2, b1, b0] = 0 := by
    unfold spaceRuneLen
    simp only
    rw [if_neg (by omega), if_neg (by omega), if_neg (by omega)]
  have hsk : skipSpace ([b5, b4, b3, b2, b1, b0].length + 1) [b5, b4, b3, b2, b1, b0]
      = some [b5, b4, b3, b2, b1, b0] := by
    simp only [List.length_cons, List.length_nil, skipSpace]
    rw [if_neg (by omega), if_pos hsp]
  have hn : ∀ b, 48 ≤ b ∧ b ≤ 57 → isNumberByte b = true := by
    intro b hb
    simp [isNumberByte, hb.1, hb.2]
  have e43 : b5 ≠ 43 := by omega
  have e45 : b5 ≠ 45 := by omega
  unfold sscanfInt
  rw [hsk]
  simp [e43, e45, List.takeWhile, hn b5 h5, hn b4 h4, hn b3 h3, hn b2 h2, hn b1 h1, hn b0 h0]

/-- Codec round trip: the six digits `zeroPad6 a` scan back to `a`. -/
theorem getSeq_zeroPad6 (a : Nat) (ha : a < 1000000) : getSeq (zeroPad6 a) = (a : Int) := by
  unfold getSeq zeroPad6
  rw [sscanfInt_digits _ _ _ _ _ _ (by omega) (by omega) (by omega) (by omega) (by omega)
    (by omega)]
  simp only [digitsValue, List.foldl]
  push_cast
  omega

theorem goCopy_length (dst src : List Nat) : (goCopy dst src).length = dst.length := by
  unfold goCopy
  simp only [List.length_append, List.length_take, List.length_drop]
  omega

theorem decodeAck_ackDatagram (buf : List Nat) (a : Nat) (ha : a < 1000000)
    (hb : 9 ≤ buf.length) : decodeAck buf (ackDatagram a) = (a : Int) := by
  have hl : (ackDatagram a).length = 9 := rfl
  have h1 : (ackDatagram a).take buf.length = ackDatagram a :=
    List.take_of_length_le (by omega)
  unfold decodeAck goCopy
  rw [h1]
  have h2 : ((ackDatagram a ++ List.drop (ackDatagram a).length buf).drop 3).take 6
      = zeroPad6 a := by
    unfold ackDatagram
    simp [zeroPad6]
  rw [h2]
  exact getSeq_zeroPad6 a ha

theorem ackUpdate_counter (N : Nat) (a : Int) (v : Vars) :
    (ackUpdate N a v).1.same_ack
      = (if a = v.last_ack then (if v.same_ack + 1 > 2 then 0 else v.same_ack + 1)
         else v.same_ack) ∧
    (ackUpdate N a v).1.lost_ack
      = (if a = v.last_ack ∧ v.same_ack + 1 > 2 then true else v.lost_ack) ∧
    (ackUpdate N a v).1.next_seq
      = (if a = v.last_ack ∧ v.same_ack + 1 > 2 then a + 1 else v.next_seq) := by
  unfold ackUpdate
  simp only
  split_ifs <;> simp_all

theorem window_lost (v : Vars) (h : v.lost_ack = true)
    (hn : v.next_biggest_ack ≤ v.next_seq) :
    (window v).1.borneInf = v.next_biggest_ack ∧
    (window v).1.borneSup = v.next_biggest_ack + 64 ∧
    (window v).1.borneInfSlide = true ∧
    (window v).1.next_seq = v.next_seq := by
  unfold window winSize
  simp only
  split_ifs <;> simp_all <;> omega

theorem ackUpdate_new_values (N : Nat) (a : Int) (v : Vars) (h : v.last_ack < a)
    (hn : v.next_biggest_ack = v.last_ack + 1) :
    (ackUpdate N a v).1.last_ack = a ∧
    (ackUpdate N a v).1.next_biggest_ack = a + 1 ∧
    (ackUpdate N a v).1.same_ack = v.same_ack ∧
    (ackUpdate N a v).1.lost_ack = v.lost_ack ∧
    (ackUpdate N a v).1.next_seq = v.next_seq ∧
    (ackUpdate N a v).2 = (if a = (N : Int) then [Datagram.fin] else []) := by
  obtain ⟨-, -, -, -, -, a6, a7, a8⟩ := ackUpdate_frame N a v
  obtain ⟨c1, c2, c3⟩ := ackUpdate_counter N a v
  have hl : (ackUpdate N a v).1.last_ack = a := by
    rw [a6, if_pos (by omega)]
  have e1 : ¬ (a = v.last_ack) := by omega
  refine ⟨hl, ?_, ?_, ?_, ?_, ?_⟩
  · rw [a7, hl, if_pos (by omega)]
  · rw [c1, if_neg e1]
  · rw [c2, if_neg (fun hc => e1 hc.1)]
  · rw [c3, if_neg (fun hc => e1 hc.1)]
  · rw [a8, hl]

theorem ackUpdate_dup_values (N : Nat) (a : Int) (v : Vars) (h : a = v.last_ack)
    (hn : v.next_biggest_ack = v.last_ack + 1) :
    (ackUpdate N a v).1.last_ack = a ∧
    (ackUpdate N a v).1.next_biggest_ack = v.next_biggest_ack ∧
    (ackUpdate N a v).1.same_ack = (if v.same_ack + 1 > 2 then 0 else v.same_ack + 1) ∧
    (ackUpdate N a v).1.lost_ack = (if v.same_ack + 1 > 2 then true else v.lost_ack) ∧
    (ackUpdate N a v).1.next_seq = (if v.same_ack + 1 > 2 then a + 1 else v.next_seq) ∧
    (ackUpdate N a v).2 = (if a = (N : Int) then [Datagram.fin] else []) := by
  obtain ⟨-, -, -, -, -, a6, a7, a8⟩ := ackUpdate_frame N a v
  obtain ⟨c1, c2, c3⟩ := ackUpdate_counter N a v
  have hl : (ackUpdate N a v).1.last_ack = a := by
    rw [a6, if_pos (by omega)]
  refine ⟨hl, ?_, ?_, ?_, ?_, ?_⟩
  · rw [a7, hl, if_neg (by omega)]
  · rw [c1, if_pos h]
  · rw [c2]
    simp only [h, true_and]
  · rw [c3]
    simp only [h, true_and]
  · rw [a8, hl]

/-! ### C12 -/

/-- A transmission of segment `n` stamps the slot `n - 1` of `timeouts`. -/
theorem send_stamps_slot (N : Nat) (c : Bool) (now n : Int) (v v1 : Vars)
    (out : List Datagram) (h : send N c now n v = some (v1, out)) (hn : n ≤ (N : Int)) :
    v1.timeouts = v.timeouts.set (n - 1).toNat (some now) := by
  unfold send at h
  rw [if_pos hn] at h
  split_ifs at h <;> simp only [Option.some.injEq, Prod.mk.injEq] at h <;> rw [← h.1]

/-- A stalled transmit step decides on the slot `next_biggest_ack` of `timeouts`. -/
theorem stall_consults_slot (N : Nat) (c : Bool) (now : Int) (v : Vars)
    (hw : (window v).2 = false) (h0 : 0 ≤ v.next_biggest_ack) (stamp : Option Int)
    (hs : v.timeouts[v.next_biggest_ack.toNat]? = some stamp) :
    transmitBody N c now v
      = some (if timedOut now stamp = true
          then { (window v).1 with next_seq := v.next_biggest_ack } else (window v).1, []) := by
  obtain ⟨-, w2, -, w4, -⟩ := window_frame v
  unfold transmitBody
  simp only [hw, Bool.false_eq_true, if_false]
  rw [if_neg (by rw [w2]; omega), w4, w2, hs]
  simp only
  split_ifs <;> rfl

set_option maxRecDepth 8000 in
/-- C12 (the code at the failing input): `send` stamps `timeouts[num_seq-1]` but the
stall branch consults `timeouts[next_biggest_ack]`, the slot of the following segment.
With one packet (`N = 1`) and transmit steps every millisecond, segment 1 is written
at clock 0 (slot 0 stamped); at 65 ms the window stalls with `next_biggest_ack = 1`,
the slot consulted is slot 1, never stamped, and the step forces a retransmission,
written at 66 ms, although 65 ms since the last transmission of segment 1 is below
300 ms. With two packets written at 0 and 200 ms, the stall step at 400 ms consults
the stamp of segment 2 and forces nothing, although segment 1 was last written 400 ms
before. -/
theorem stall_consults_following_slot :
    (∃ s1 s65 s66 s67,
      run 1 [Event.tick 0] = some s1 ∧ s1.sent = [Datagram.data 1] ∧
      s1.v.timeouts = [some 0, none, none] ∧
      runFrom 1 s1 (ticksFrom 1000000 1000000 64) = some s65 ∧
      s65.sent = [Datagram.data 1] ∧ s65.v.next_biggest_ack = 1 ∧ s65.v.next_seq = 66 ∧
      s65.v.timeouts = [some 0, none, none] ∧ (window s65.v).2 = false ∧
      s65.v.timeouts[s65.v.next_biggest_ack.toNat]? = some none ∧
      timedOut 65000000 (some 0) = false ∧
      step 1 (Event.tick 65000000) s65 = some s66 ∧ s66.v.next_seq = 1 ∧
      step 1 (Event.tick 66000000) s66 = some s67 ∧
      s67.sent = [Datagram.data 1, Datagram.data 1]) ∧
    (∃ t t1,
      run 2 ([Event.tick 0, Event.tick 200000000] ++ ticksFrom 201000000 1000000 63) = some t ∧
      t.sent = [Datagram.data 1, Datagram.data 2] ∧ t.v.next_biggest_ack = 1 ∧
      t.v.next_seq = 66 ∧ t.v.timeouts = [some 0, some 200000000, none, none] ∧
      (window t.v).2 = false ∧
      timedOut 400000000 (some 0) = true ∧
      step 2 (Event.tick 400000000) t = some t1 ∧ t1.v.next_seq = 66 ∧
      t1.sent = [Datagram.data 1, Datagram.data 2]) :=
  ⟨⟨_, _, _, _, rfl, rfl, rfl, rfl, rfl, rfl, rfl, rfl, rfl, rfl, rfl, rfl, rfl, rfl, rfl⟩,
    ⟨_, _, rfl, rfl, rfl, rfl, rfl, rfl, rfl, rfl, rfl, rfl⟩⟩

/-! ### C15 -/

theorem concInit_inv (N : Nat) : ConcInv N (concInit N) := by
  constructor <;> simp [concInit, initVars, finCount]
  split_ifs with h
  · omega
  · rfl

theorem concTick_inv (N : Nat) (now : Int) (s : Conc) (hi : ConcInv N s) :
    ConcInv N (concTick N now s) := by
  have hnba : 1 ≤ s.v.next_biggest_ack := by
    have := hi.nba_eq
    have := hi.last_nonneg
    omega
  unfold concTick
  split
  · split_ifs <;>
      exact ⟨hi.nba_eq, hi.last_nonneg, hi.guard, hi.tlen, hi.fins, hi.low_pos, hi.low_le,
        hi.tight, hi.buf_len, hi.seq_pos⟩
  · obtain ⟨w1, w2, -, w4, w5, -, w7, w8, -⟩ := window_frame s.v
    obtain ⟨l1, l2⟩ := window_low s.v hnba hi.low_pos hi.low_le hi.tight
    refine ⟨?_, ?_, ?_, ?_, ?_, l1, ?_, fun _ => w7, ?_, ?_⟩
    · simp only
      rw [w1, w2]
      exact hi.nba_eq
    · simp only
      rw [w1]
      exact hi.last_nonneg
    · simp only
      rw [w2]
      exact hi.guard
    · simp only
      rw [w4]
      exact hi.tlen
    · simp only
      rw [w1]
      exact hi.fins
    · simp only
      rw [w2]
      exact l2
    · simp only
      rw [w5]
      exact hi.buf_len
    · simp only
      omega
  · split
    · exact ⟨hi.nba_eq, hi.last_nonneg, hi.guard, hi.tlen, hi.fins, hi.low_pos, hi.low_le,
        hi.tight, hi.buf_len, hi.seq_pos⟩
    · rename_i r hs
      obtain ⟨v1, out⟩ := r
      obtain ⟨s1, s2, -, s4, s5, s6, s7, s8, -, s10, s11⟩ := send_frame _ _ _ _ _ _ _ hs
      refine ⟨?_, ?_, ?_, ?_, ?_, ?_, ?_, ?_, ?_, ?_⟩
      · simp only
        rw [s1, s2]
        exact hi.nba_eq
      · simp only
        rw [s1]
        exact hi.last_nonneg
      · simp only
        rw [s2]
        exact hi.guard
      · simp only
        rw [s5]
        exact hi.tlen
      · simp only
        rw [s1, finCount_append_data _ _ (fun d hd => ⟨_, (s11 d hd).1⟩)]
        exact hi.fins
      · simp only
        rw [s6]
        exact hi.low_pos
      · simp only
        rw [s6, s2]
        exact hi.low_le
      · simp only
        rw [s8, s7, s6]
        exact hi.tight
      · simp only
        rw [s4]
        exact hi.buf_len
      · simp only
        rw [s10]
        exact hi.seq_pos
  · exact ⟨hi.nba_eq, hi.last_nonneg, hi.guard, hi.tlen, hi.fins, hi.low_pos, hi.low_le,
      hi.tight, hi.buf_len, by have := hi.seq_pos; simp only; omega⟩
  · split_ifs
    · exact ⟨hi.nba_eq, hi.last_nonneg, hi.guard, hi.tlen, hi.fins, hi.low_pos, hi.low_le,
        hi.tight, hi.buf_len, hi.seq_pos⟩
    · split
      · exact ⟨hi.nba_eq, hi.last_nonneg, hi.guard, hi.tlen, hi.fins, hi.low_pos, hi.low_le,
          hi.tight, hi.buf_len, hi.seq_pos⟩
      · split_ifs
        · exact ⟨hi.nba_eq, hi.last_nonneg, hi.guard, hi.tlen, hi.fins, hi.low_pos,
            hi.low_le, hi.tight, hi.buf_len, hnba⟩
        · exact ⟨hi.nba_eq, hi.last_nonneg, hi.guard, hi.tlen, hi.fins, hi.low_pos,
            hi.low_le, hi.tight, hi.buf_len, hi.seq_pos⟩
  · exact hi

/-- The ACK loop body, field by field, in terms of the decoded value. -/
theorem ackBody_fields (N : Nat) (d : List Nat) (v : Vars) :
    (ackBody N d v).1.next_seq = (ackUpdate N (decodeAck v.buf d) v).1.next_seq ∧
    (ackBody N d v).1.last_ack = (ackUpdate N (decodeAck v.buf d) v).1.last_ack ∧
    (ackBody N d v).1.same_ack = (ackUpdate N (decodeAck v.buf d) v).1.same_ack ∧
    (ackBody N d v).1.lost_ack = (ackUpdate N (decodeAck v.buf d) v).1.lost_ack ∧
    (ackBody N d v).1.next_biggest_ack
      = (ackUpdate N (decodeAck v.buf d) v).1.next_biggest_ack ∧
    (ackBody N d v).1.buf = goCopy v.buf d ∧
    (ackBody N d v).2 = (ackUpdate N (decodeAck v.buf d) v).2 := by
  obtain ⟨b1, b2⟩ := ackBody_eq_ackUpdate N d v
  rw [b1, b2]
  exact ⟨rfl, rfl, rfl, rfl, rfl, rfl, rfl⟩

theorem concRecv_inv (N : Nat) (d : List Nat) (s : Conc) (hi : ConcInv N s)
    (ha : s.ackLoop = true) :
    ConcInv N { s with v := (ackBody N d s.v).1,
                       sent := s.sent ++ (ackBody N d s.v).2,
                       ackLoop := decide ((ackBody N d s.v).1.next_biggest_ack
                         ≤ (N : Int)) } := by
  obtain ⟨a1, a2, a3, a4, a5, a6, a7⟩ := ackBody_frame N d s.v
  obtain ⟨f1, -, -, -, -, f6, -⟩ := ackBody_fields N d s.v
  obtain ⟨-, -, c3⟩ := ackUpdate_counter N (decodeAck s.v.buf d) s.v
  have e1 := hi.nba_eq
  have e2 := hi.last_nonneg
  have e3 := hi.guard ha
  have e4 := hi.fins
  refine ⟨?_, ?_, ?_, ?_, ?_, ?_, ?_, ?_, ?_, ?_⟩
  · simp only
    rw [a6, a5]
    split_ifs <;> omega
  · simp only
    rw [a5]
    split_ifs <;> omega
  · simp only [decide_eq_true_eq]
    exact fun hle => hle
  · simp only
    rw [a4]
    exact hi.tlen
  · simp only
    rw [a7]
    have hz : finCount s.sent = 0 := by
      rw [e4, if_neg]
      omega
    by_cases hN : (ackBody N d s.v).1.last_ack = (N : Int)
    · have hN1 : 1 ≤ N := by
        rw [a5] at hN
        split_ifs at hN <;> omega
      rw [if_pos hN, if_pos ⟨hN, hN1⟩]
      unfold finCount at *
      rw [List.count_append, hz]
      rfl
    · rw [if_neg hN, if_neg (fun hc => hN hc.1), List.append_nil]
      exact hz
  · simp only
    rw [a1]
    exact hi.low_pos
  · simp only
    rw [a1, a6, a5]
    have := hi.low_le
    split_ifs <;> omega
  · simp only
    rw [a3, a2, a1]
    exact hi.tight
  · simp only
    rw [f6, goCopy_length]
    exact hi.buf_len
  · simp only
    rw [f1, c3]
    have := hi.seq_pos
    split_ifs <;> omega

theorem concStep_inv (N : Nat) (e : Event) (s : Conc) (hi : ConcInv N s) :
    ConcInv N (concStep N e s) := by
  cases e with
  | tick now =>
    simp only [concStep]
    split_ifs with hp
    · exact hi
    · exact concTick_inv N now s hi
  | recv d =>
    simp only [concStep]
    split_ifs with hp ha
    · exact hi
    · exact concRecv_inv N d s hi ha
    · exact hi
  | recvErr =>
    simp only [concStep]
    split_ifs with hp
    · exact hi
    · exact ⟨hi.nba_eq, hi.last_nonneg, fun hc => by simp at hc, hi.tlen, hi.fins,
        hi.low_pos, hi.low_le, hi.tight, hi.buf_len, hi.seq_pos⟩

theorem concRunFrom_append (N : Nat) (s : Conc) (xs ys : List Event) :
    concRunFrom N s (xs ++ ys) = concRunFrom N (concRunFrom N s xs) ys := by
  unfold concRunFrom
  rw [List.foldl_append]

theorem concRunFrom_cons (N : Nat) (s : Conc) (e : Event) (es : List Event) :
    concRunFrom N s (e :: es) = concRunFrom N (concStep N e s) es := rfl

theorem concRunFrom_inv (N : Nat) (evs : List Event) :
    ∀ s, ConcInv N s → ConcInv N (concRunFrom N s evs) := by
  induction evs with
  | nil => exact fun s hi => hi
  | cons e es ih =>
    intro s hi
    rw [concRunFrom_cons]
    exact ih _ (concStep_inv N e s hi)

theorem concRun_inv (N : Nat) (evs : List Event) : ConcInv N (concRun N evs) :=
  concRunFrom_inv N evs _ (concInit_inv N)

theorem concTick_frozen (N : Nat) (now : Int) (s : Conc) :
    (concTick N now s).v.last_ack = s.v.last_ack ∧
      (concTick N now s).ackLoop = s.ackLoop ∧
      (s.panicked = true → (concTick N now s).panicked = true) := by
  unfold concTick
  split
  · split_ifs <;> exact ⟨rfl, rfl, fun h => h⟩
  · exact ⟨(window_frame s.v).1, rfl, fun h => h⟩
  · split
    · exact ⟨rfl, rfl, fun _ => rfl⟩
    · rename_i r hs
      obtain ⟨v1, out⟩ := r
      exact ⟨(send_frame _ _ _ _ _ _ _ hs).1, rfl, fun h => h⟩
  · exact ⟨rfl, rfl, fun h => h⟩
  · split_ifs
    · exact ⟨rfl, rfl, fun _ => rfl⟩
    · split
      · exact ⟨rfl, rfl, fun _ => rfl⟩
      · split_ifs <;> exact ⟨rfl, rfl, fun h => h⟩
  · exact ⟨rfl, rfl, fun h => h⟩

/-- A step that is not an executed iteration of the ACK loop leaves `last_ack` alone,
and the ACK loop does not start again. -/
theorem concStep_last_ack_frozen (N : Nat) (e : Event) (s : Conc)
    (hoff : s.ackLoop = false ∨ s.panicked = true ∨ ∀ d, e ≠ Event.recv d) :
    (concStep N e s).v.last_ack = s.v.last_ack ∧
      (s.ackLoop = false ∨ s.panicked = true →
        (concStep N e s).ackLoop = false ∨ (concStep N e s).panicked = true) := by
  cases e with
  | tick now =>
    simp only [concStep]
    split_ifs with hp
    · exact ⟨rfl, fun _ => Or.inr hp⟩
    · refine ⟨(concTick_frozen N now s).1, fun h => ?_⟩
      rcases h with h | h
      · left
        rw [(concTick_frozen N now s).2.1]
        exact h
      · exact absurd h hp
  | recv d =>
    simp only [concStep]
    split_ifs with hp ha
    · exact ⟨rfl, fun _ => Or.inr hp⟩
    · rcases hoff with h | h | h
      · rw [ha] at h
        cases h
      · exact absurd h hp
      · exact absurd rfl (h d)
    · exact ⟨rfl, fun _ => Or.inl (by simpa using ha)⟩
  | recvErr =>
    simp only [concStep]
    split_ifs with hp
    · exact ⟨rfl, fun _ => Or.inr hp⟩
    · exact ⟨rfl, fun _ => Or.inl rfl⟩

theorem concRunFrom_last_ack_frozen (N : Nat) (evs : List Event) :
    ∀ s, (s.ackLoop = false ∨ s.panicked = true) →
      (concRunFrom N s evs).v.last_ack = s.v.last_ack := by
  induction evs with
  | nil => exact fun s _ => rfl
  | cons e es ih =>
    intro s hoff
    rw [concRunFrom_cons]
    have hoff3 : s.ackLoop = false ∨ s.panicked = true ∨ ∀ d, e ≠ Event.recv d := by
      rcases hoff with h | h
      · exact Or.inl h
      · exact Or.inr (Or.inl h)
    obtain ⟨f1, f2⟩ := concStep_last_ack_frozen N e s hoff3
    rw [ih _ (f2 hoff), f1]

theorem concRun_append (N : Nat) (pre post : List Event) :
    concRun N (pre ++ post) = concRunFrom N (concRun N pre) post := by
  unfold concRun
  rw [concRunFrom_append]

theorem concRun_snoc (N : Nat) (pre : List Event) (e : Event) :
    concRun N (pre ++ [e]) = concStep N e (concRun N pre) := by
  rw [concRun_append]
  rfl

theorem concRun_nil (N : Nat) : concRun N [] = concInit N := rfl

theorem conc_ackStep_of_last_ack (N : Nat) (hN : 1 ≤ N) (evs : List Event) :
    (concRun N evs).v.last_ack = (N : Int) → ConcAckStepEndedWith N evs N := by
  induction evs using List.reverseRecOn with
  | nil =>
    intro h
    rw [concRun_nil] at h
    simp only [concInit, initVars] at h
    omega
  | append_singleton pre e ih =>
    intro h
    by_cases hp : (concRun N pre).v.last_ack = (N : Int)
    · obtain ⟨p, d, q, e1, e2, e3, e4⟩ := ih hp
      exact ⟨p, d, q ++ [e], by rw [e1]; simp, e2, e3, e4⟩
    · rw [concRun_snoc] at h
      by_cases hoff : (concRun N pre).ackLoop = false ∨ (concRun N pre).panicked = true ∨
          ∀ d, e ≠ Event.recv d
      · rw [(concStep_last_ack_frozen N e _ hoff).1] at h
        exact absurd h hp
      · push_neg at hoff
        obtain ⟨h1, h2, d, h3⟩ := hoff
        subst h3
        refine ⟨pre, d, [], rfl, by simpa using h2, by simpa using h1, ?_⟩
        rw [concRun_snoc]
        exact h

/-! ### C3 -/

/-- C3: for every `N ≥ 1` and every sequence of events (datagrams with any content,
receive errors and statements of the transmit goroutine in any interleaving, runs that
die of a panic included), the session has written `FIN` at most once, and it has
written it exactly once if and only if some executed iteration of the ACK loop ended
with `last_ack = N`. -/
theorem fin_at_most_once (N : Nat) (hN : 1 ≤ N) (evs : List Event) :
    finCount (concRun N evs).sent ≤ 1 ∧
      (finCount (concRun N evs).sent = 1 ↔ ConcAckStepEndedWith N evs N) := by
  have hi := concRun_inv N evs
  refine ⟨?_, ?_, ?_⟩
  · rw [hi.fins]
    split_ifs <;> omega
  · intro h1
    apply conc_ackStep_of_last_ack N hN evs
    by_contra hc
    rw [hi.fins, if_neg (fun h => hc h.1)] at h1
    omega
  · rintro ⟨pre, d, post, e1, e2, e3, e4⟩
    have hi1 := concRun_inv N (pre ++ [Event.recv d])
    have hnba := hi1.nba_eq
    rw [e4] at hnba
    have hoff : (concRun N (pre ++ [Event.recv d])).ackLoop = false := by
      rw [concRun_snoc] at hnba ⊢
      simp only [concStep, e2, e3, if_true, Bool.false_eq_true, if_false] at hnba ⊢
      rw [hnba]
      simp
    have hl := concRunFrom_last_ack_frozen N post _ (Or.inl hoff)
    have hrun : concRun N evs = concRunFrom N (concRun N (pre ++ [Event.recv d])) post := by
      rw [e1, ← concRun_append]
      simp
    rw [hi.fins, if_pos ⟨by rw [hrun, hl, e4], hN⟩]

/-- The hypothesis of C3 holds for a one-packet file whose only segment is
acknowledged by the datagram `ACK000001` while the transmit goroutine sleeps. -/
theorem fin_at_most_once_witness :
    finCount (concRun 1 [Event.tick 0, Event.recv (ackDatagram 1), Event.tick 0]).sent ≤ 1 ∧
      (finCount (concRun 1 [Event.tick 0, Event.recv (ackDatagram 1), Event.tick 0]).sent = 1 ↔
        ConcAckStepEndedWith 1
          [Event.tick 0, Event.recv (ackDatagram 1), Event.tick 0] 1) :=
  fin_at_most_once 1 (by decide) [Event.tick 0, Event.recv (ackDatagram 1), Event.tick 0]

/-! ### C7 -/

/-- What one statement of the transmit goroutine does to the window bounds. -/
theorem concTick_bounds (N : Nat) (now : Int) (s : Conc) :
    (concTick N now s).v.next_biggest_ack = s.v.next_biggest_ack ∧
    ((s.pc = Pc.body ∧ (concTick N now s).v.borneInf = (window s.v).1.borneInf ∧
        (concTick N now s).v.borneSup = (window s.v).1.borneSup) ∨
      ((concTick N now s).v.borneInf = s.v.borneInf ∧
        (concTick N now s).v.borneSup = s.v.borneSup)) := by
  unfold concTick
  split
  · split_ifs <;> exact ⟨rfl, Or.inr ⟨rfl, rfl⟩⟩
  · rename_i hpc
    exact ⟨(window_frame s.v).2.1, Or.inl ⟨hpc, rfl, rfl⟩⟩
  · split
    · exact ⟨rfl, Or.inr ⟨rfl, rfl⟩⟩
    · rename_i r hs
      obtain ⟨v1, out⟩ := r
      obtain ⟨-, s2, -, -, -, s6, s7, -⟩ := send_frame _ _ _ _ _ _ _ hs
      exact ⟨s2, Or.inr ⟨s6, s7⟩⟩
  · exact ⟨rfl, Or.inr ⟨rfl, rfl⟩⟩
  · split_ifs
    · exact ⟨rfl, Or.inr ⟨rfl, rfl⟩⟩
    · split
      · exact ⟨rfl, Or.inr ⟨rfl, rfl⟩⟩
      · split_ifs <;> exact ⟨rfl, Or.inr ⟨rfl, rfl⟩⟩
  · exact ⟨rfl, Or.inr ⟨rfl, rfl⟩⟩

theorem concStep_tight (N : Nat) (e : Event) (s : Conc)
    (ht : s.v.borneSup = s.v.borneInf + 64) :
    (concStep N e s).v.borneSup = (concStep N e s).v.borneInf + 64 := by
  cases e with
  | tick now =>
    simp only [concStep]
    split_ifs with hp
    · exact ht
    · rcases (concTick_bounds N now s).2 with ⟨-, b1, b2⟩ | ⟨b1, b2⟩
      · rw [b1, b2]
        exact (window_frame s.v).2.2.2.2.2.2.1
      · rw [b1, b2]
        exact ht
  | recv d =>
    simp only [concStep]
    split_ifs with hp ha
    · exact ht
    · obtain ⟨a1, a2, -⟩ := ackBody_frame N d s.v
      simp only
      rw [a1, a2]
      exact ht
    · exact ht
  | recvErr =>
    simp only [concStep]
    split_ifs with hp
    · exact ht
    · exact ht

theorem concRunFrom_tight (N : Nat) (evs : List Event) :
    ∀ s, s.v.borneSup = s.v.borneInf + 64 →
      (concRunFrom N s evs).v.borneSup = (concRunFrom N s evs).v.borneInf + 64 := by
  induction evs with
  | nil => exact fun s ht => ht
  | cons e es ih =>
    intro s ht
    rw [concRunFrom_cons]
    exact ih _ (concStep_tight N e s ht)

theorem concStep_upper (N : Nat) (e : Event) (s : Conc) (hi : ConcInv N s)
    (hu : s.v.next_biggest_ack ≤ s.v.borneSup + 1)
    (hw : concAcksWithinWindow N s [e] = true) :
    (concStep N e s).v.next_biggest_ack ≤ (concStep N e s).v.borneSup + 1 := by
  cases e with
  | tick now =>
    simp only [concStep]
    split_ifs with hp
    · exact hu
    · obtain ⟨b0, b⟩ := concTick_bounds N now s
      rcases b with ⟨-, -, b2⟩ | ⟨-, b2⟩
      · have hnba : 1 ≤ s.v.next_biggest_ack := by
          have := hi.nba_eq
          have := hi.last_nonneg
          omega
        rw [b0, b2]
        exact window_upper s.v hnba hi.tight hu
      · rw [b0, b2]
        exact hu
  | recv d =>
    simp only [concStep]
    split_ifs with hp ha
    · exact hu
    · obtain ⟨-, a2, -, -, a5, a6, -⟩ := ackBody_frame N d s.v
      have hpf : s.panicked = false := by simpa using hp
      unfold concAcksWithinWindow at hw
      simp only [ha, hpf, Bool.not_true, Bool.false_or, Bool.and_eq_true,
        decide_eq_true_eq] at hw
      obtain ⟨hw1, -⟩ := hw
      have := hi.nba_eq
      simp only
      rw [a6, a5, a2]
      split_ifs <;> omega
    · exact hu
  | recvErr =>
    simp only [concStep]
    split_ifs with hp
    · exact hu
    · exact hu

theorem concRunFrom_upper (N : Nat) (evs : List Event) :
    ∀ s, ConcInv N s → s.v.next_biggest_ack ≤ s.v.borneSup + 1 →
      concAcksWithinWindow N s evs = true →
      (concRunFrom N s evs).v.next_biggest_ack ≤ (concRunFrom N s evs).v.borneSup + 1 := by
  induction evs with
  | nil => exact fun s _ hu _ => hu
  | cons e es ih =>
    intro s hi hu hw
    rw [concRunFrom_cons]
    have hw2 : concAcksWithinWindow N s [e] = true ∧
        concAcksWithinWindow N (concStep N e s) es = true := by
      simp only [concAcksWithinWindow, Bool.and_eq_true] at hw ⊢
      exact ⟨⟨hw.1, trivial⟩, hw.2⟩
    exact ih _ (concStep_inv N e s hi) (concStep_upper N e s hi hu hw2.1) hw2.2

set_option maxRecDepth 8000 in
/-- C7 (as stated, refuted): in a 200-packet session the transmit goroutine passes its
guard and recomputes the window to `[1..65]`; the datagram `ACK000100` then makes
`next_biggest_ack = 101`, which exceeds `borneSup + 1 = 66`. -/
theorem window_tightness_counterexample :
    (concRun 200 [Event.tick 0, Event.tick 0, Event.recv (ackDatagram 100)]).panicked = false ∧
    (concRun 200 [Event.tick 0, Event.tick 0, Event.recv (ackDatagram 100)]).v.borneInf = 1 ∧
    (concRun 200 [Event.tick 0, Event.tick 0, Event.recv (ackDatagram 100)]).v.borneSup = 65 ∧
    (concRun 200
      [Event.tick 0, Event.tick 0, Event.recv (ackDatagram 100)]).v.next_biggest_ack = 101 ∧
    ¬ ((concRun 200
      [Event.tick 0, Event.tick 0, Event.recv (ackDatagram 100)]).v.next_biggest_ack ≤
      (concRun 200 [Event.tick 0, Event.tick 0, Event.recv (ackDatagram 100)]).v.borneSup + 1) := by
  refine ⟨rfl, rfl, rfl, rfl, ?_⟩
  show ¬ ((101 : Int) ≤ 65 + 1)
  decide

/-- C7 (amended): for every session and every interleaving of statements of the
transmit goroutine and iterations of the ACK loop with any received datagrams, at every
point from a window recomputation onward (the call `window()` executed after the events
`pre`), `borneSup - borneInf + 1 = 65` and `borneInf ≤ next_biggest_ack`; and
`next_biggest_ack ≤ borneSup + 1` holds there provided every ACK value processed so far
was at most `borneSup` when processed. -/
theorem window_tightness (N : Nat) (pre : List Event) (now : Int) (post : List Event)
    (hexec : (concRun N pre).pc = Pc.body ∧ (concRun N pre).panicked = false) :
    (concRun N (pre ++ Event.tick now :: post)).v.borneSup
        - (concRun N (pre ++ Event.tick now :: post)).v.borneInf + 1 = winSize ∧
      (concRun N (pre ++ Event.tick now :: post)).v.borneInf
        ≤ (concRun N (pre ++ Event.tick now :: post)).v.next_biggest_ack ∧
      (concAcksWithinWindow N (concInit N) (pre ++ Event.tick now :: post) = true →
        (concRun N (pre ++ Event.tick now :: post)).v.next_biggest_ack
          ≤ (concRun N (pre ++ Event.tick now :: post)).v.borneSup + 1) := by
  have hi := concRun_inv N (pre ++ Event.tick now :: post)
  refine ⟨?_, hi.low_le, ?_⟩
  · have ht : (concStep N (Event.tick now) (concRun N pre)).v.borneSup
        = (concStep N (Event.tick now) (concRun N pre)).v.borneInf + 64 := by
      simp only [concStep, hexec.2, Bool.false_eq_true, if_false]
      rcases (concTick_bounds N now (concRun N pre)).2 with ⟨-, b1, b2⟩ | ⟨b1, b2⟩
      · rw [b1, b2]
        exact (window_frame _).2.2.2.2.2.2.1
      · unfold concTick at b1 b2 ⊢
        simp only [hexec.1] at b1 b2 ⊢
        exact (window_frame _).2.2.2.2.2.2.1
    have := concRunFrom_tight N post _ ht
    rw [concRun_append, concRunFrom_cons]
    unfold winSize
    omega
  · intro hw
    exact concRunFrom_upper N _ (concInit N) (concInit_inv N)
      (by simp [concInit, initVars]) hw

set_option maxRecDepth 8000 in
/-- The hypotheses of the amended C7 hold for a fresh 200-packet session whose
transmit goroutine has passed its guard, with `ACK000001` arriving after the call
`window()`. -/
theorem window_tightness_witness :
    ((concRun 200 [Event.tick 0]).pc = Pc.body ∧ (concRun 200 [Event.tick 0]).panicked = false) ∧
    ((concRun 200 ([Event.tick 0] ++ Event.tick 0 :: [Event.recv (ackDatagram 1)])).v.borneSup
        - (concRun 200
            ([Event.tick 0] ++ Event.tick 0 :: [Event.recv (ackDatagram 1)])).v.borneInf + 1
        = winSize ∧
      (concRun 200 ([Event.tick 0] ++ Event.tick 0 :: [Event.recv (ackDatagram 1)])).v.borneInf
        ≤ (concRun 200
            ([Event.tick 0] ++ Event.tick 0 :: [Event.recv (ackDatagram 1)])).v.next_biggest_ack ∧
      (concAcksWithinWindow 200 (concInit 200)
          ([Event.tick 0] ++ Event.tick 0 :: [Event.recv (ackDatagram 1)]) = true →
        (concRun 200
            ([Event.tick 0] ++ Event.tick 0 :: [Event.recv (ackDatagram 1)])).v.next_biggest_ack
          ≤ (concRun 200
              ([Event.tick 0] ++ Event.tick 0 :: [Event.recv (ackDatagram 1)])).v.borneSup + 1)) :=
  ⟨⟨rfl, rfl⟩, window_tightness 200 [Event.tick 0] 0 [Event.recv (ackDatagram 1)] ⟨rfl, rfl⟩⟩

/-! ### C11 -/

/-- What one statement of the transmit goroutine leaves alone. -/
theorem concTick_keep (N : Nat) (now : Int) (s : Conc) :
    (concTick N now s).v.last_ack = s.v.last_ack ∧
    (concTick N now s).v.next_biggest_ack = s.v.next_biggest_ack ∧
    (concTick N now s).v.same_ack = s.v.same_ack ∧
    (concTick N now s).ackLoop = s.ackLoop ∧
    (s.v.lost_ack = false → (concTick N now s).v.lost_ack = false) := by
  unfold concTick
  split
  · split_ifs <;> exact ⟨rfl, rfl, rfl, rfl, fun h => h⟩
  · obtain ⟨w1, w2, w3, -, -, w6, -⟩ := window_frame s.v
    exact ⟨w1, w2, w3, rfl, fun _ => w6⟩
  · split
    · exact ⟨rfl, rfl, rfl, rfl, fun h => h⟩
    · rename_i r hs
      obtain ⟨v1, out⟩ := r
      obtain ⟨s1, s2, s3, -, -, -, -, -, s9, -⟩ := send_frame _ _ _ _ _ _ _ hs
      exact ⟨s1, s2, s3, rfl, fun h => by rw [← h]; exact s9⟩
  · exact ⟨rfl, rfl, rfl, rfl, fun h => h⟩
  · split_ifs
    · exact ⟨rfl, rfl, rfl, rfl, fun h => h⟩
    · split
      · exact ⟨rfl, rfl, rfl, rfl, fun h => h⟩
      · split_ifs <;> exact ⟨rfl, rfl, rfl, rfl, fun h => h⟩
  · exact ⟨rfl, rfl, rfl, rfl, fun h => h⟩

/-- While `next_biggest_ack ≤ N` no statement of the transmit goroutine panics. -/
theorem concTick_alive (N : Nat) (now : Int) (s : Conc) (hi : ConcInv N s)
    (hg : s.v.next_biggest_ack ≤ (N : Int)) (hp : s.panicked = false) :
    (concTick N now s).panicked = false := by
  have h1 := hi.seq_pos
  have h2 := hi.tlen
  have h3 := hi.nba_eq
  have h4 := hi.last_nonneg
  unfold concTick
  split
  · rw [if_pos hg]
    exact hp
  · exact hp
  · split
    · rename_i hs
      exfalso
      unfold send at hs
      split_ifs at hs
      all_goals omega
    · exact hp
  · exact hp
  · rw [if_neg (by omega)]
    split
    · rename_i hs
      exfalso
      rw [List.getElem?_eq_none_iff] at hs
      omega
    · split_ifs <;> exact hp
  · exact hp

theorem counting_tick (N a : Nat) (k : Int) (now : Int) (s : Conc) (h : Counting N a k s) :
    Counting N a k (concStep N (Event.tick now) s) := by
  have hi2 := concStep_inv N (Event.tick now) s h.inv
  have hg := h.inv.guard h.loop
  have hal := concTick_alive N now s h.inv hg h.alive
  obtain ⟨k1, k2, k3, k4, k5⟩ := concTick_keep N now s
  have hst : concStep N (Event.tick now) s = concTick N now s := by
    simp only [concStep, h.alive, Bool.false_eq_true, if_false]
  rw [hst] at hi2 ⊢
  exact ⟨hi2, hal, by rw [k4]; exact h.loop, by rw [k1]; exact h.last,
    by rw [k3]; exact h.same, k5 h.lost⟩

theorem counting_ticks (N a : Nat) (k : Int) (c : List Int) :
    ∀ s, Counting N a k s → Counting N a k (concRunFrom N s (tickEvs c)) := by
  induction c with
  | nil => exact fun s h => h
  | cons t ts ih =>
    intro s h
    exact ih _ (counting_tick N a k t s h)

/-- One executed iteration of the ACK loop for the datagram `"ACK" + format06(a)`,
field by field. -/
theorem concStep_ackEv (N : Nat) (s : Conc) (a : Nat) (ha : a < 1000000)
    (hb : s.v.buf.length = 32) (hp : s.panicked = false) (hloop : s.ackLoop = true) :
    (concStep N (ackEv a) s).v.next_seq = (ackUpdate N a s.v).1.next_seq ∧
    (concStep N (ackEv a) s).v.last_ack = (ackUpdate N a s.v).1.last_ack ∧
    (concStep N (ackEv a) s).v.same_ack = (ackUpdate N a s.v).1.same_ack ∧
    (concStep N (ackEv a) s).v.lost_ack = (ackUpdate N a s.v).1.lost_ack ∧
    (concStep N (ackEv a) s).v.next_biggest_ack = (ackUpdate N a s.v).1.next_biggest_ack ∧
    (concStep N (ackEv a) s).sent = s.sent ++ (ackUpdate N a s.v).2 ∧
    (concStep N (ackEv a) s).pc = s.pc ∧
    (concStep N (ackEv a) s).panicked = false ∧
    (concStep N (ackEv a) s).ackLoop
      = decide ((ackUpdate N a s.v).1.next_biggest_ack ≤ (N : Int)) := by
  have hdec := decodeAck_ackDatagram s.v.buf a ha (by omega)
  obtain ⟨f1, f2, f3, f4, f5, -, f7⟩ := ackBody_fields N (ackDatagram a) s.v
  rw [hdec] at f1 f2 f3 f4 f5 f7
  have hst : concStep N (ackEv a) s
      = { s with v := (ackBody N (ackDatagram a) s.v).1,
                 sent := s.sent ++ (ackBody N (ackDatagram a) s.v).2,
                 ackLoop := decide ((ackBody N (ackDatagram a) s.v).1.next_biggest_ack
                   ≤ (N : Int)) } := by
    simp only [concStep, ackEv, hp, hloop, Bool.false_eq_true, if_false, if_true]
  rw [hst]
  refine ⟨f1, f2, f3, f4, f5, ?_, rfl, hp, ?_⟩
  · show s.sent ++ (ackBody N (ackDatagram a) s.v).2 = _
    rw [f7]
  · show decide ((ackBody N (ackDatagram a) s.v).1.next_biggest_ack ≤ (N : Int)) = _
    rw [f5]

/-- The first of the four ACKs: a value above `last_ack`. -/
theorem counting_new (N : Nat) (s : Conc) (a : Nat) (ha : a < 1000000) (hi : ConcInv N s)
    (hp : s.panicked = false) (hloop : s.ackLoop = true) (hsame : s.v.same_ack = 0)
    (hlost : s.v.lost_ack = false) (hlo : s.v.last_ack < (a : Int)) (hhi : a < N) :
    Counting N a 0 (concStep N (ackEv a) s) ∧
      (concStep N (ackEv a) s).v.next_seq = s.v.next_seq ∧
      (concStep N (ackEv a) s).pc = s.pc ∧
      (concStep N (ackEv a) s).sent = s.sent := by
  obtain ⟨e1, e2, e3, e4, e5, e6, e7, e8, e9⟩ := concStep_ackEv N s a ha hi.buf_len hp hloop
  obtain ⟨u1, u2, u3, u4, u5, u6⟩ := ackUpdate_new_values N a s.v hlo hi.nba_eq
  have hne : ¬ ((a : Int) = (N : Int)) := by omega
  refine ⟨⟨concStep_inv N _ s hi, e8, ?_, by rw [e2, u1], by rw [e3, u3, hsame],
    by rw [e4, u4, hlost]⟩, by rw [e1, u5], e7, ?_⟩
  · rw [e9, u2]
    simp only [decide_eq_true_eq]
    omega
  · rw [e6, u6, if_neg hne, List.append_nil]

/-- A duplicate of the last ACK value, by number of duplicates counted so far. -/
theorem counting_dup (N : Nat) (s : Conc) (a : Nat) (k : Int) (ha : a < 1000000)
    (hhi : a < N) (h : Counting N a k s) :
    (concStep N (ackEv a) s).v.same_ack = (if k + 1 > 2 then 0 else k + 1) ∧
    (concStep N (ackEv a) s).v.lost_ack = (if k + 1 > 2 then true else false) ∧
    (concStep N (ackEv a) s).v.next_seq = (if k + 1 > 2 then (a : Int) + 1 else s.v.next_seq) ∧
    (concStep N (ackEv a) s).v.last_ack = (a : Int) ∧
    (concStep N (ackEv a) s).v.next_biggest_ack = (a : Int) + 1 ∧
    (concStep N (ackEv a) s).pc = s.pc ∧
    (concStep N (ackEv a) s).sent = s.sent ∧
    (concStep N (ackEv a) s).panicked = false ∧
    (concStep N (ackEv a) s).ackLoop = true ∧
    ConcInv N (concStep N (ackEv a) s) := by
  obtain ⟨e1, e2, e3, e4, e5, e6, e7, e8, e9⟩ :=
    concStep_ackEv N s a ha h.inv.buf_len h.alive h.loop
  obtain ⟨u1, u2, u3, u4, u5, u6⟩ :=
    ackUpdate_dup_values N a s.v h.last.symm h.inv.nba_eq
  have hne : ¬ ((a : Int) = (N : Int)) := by omega
  have hn := h.inv.nba_eq
  rw [h.last] at hn
  rw [h.same] at u3 u4 u5
  rw [h.lost] at u4
  refine ⟨by rw [e3, u3], by rw [e4, u4], by rw [e1, u5], by rw [e2, u1], by rw [e5, u2, hn],
    e7, ?_, e8, ?_, concStep_inv N _ s h.inv⟩
  · rw [e6, u6, if_neg hne, List.append_nil]
  · rw [e9, u2, hn]
    simp only [decide_eq_true_eq]
    omega

theorem counting_dup_next (N : Nat) (s : Conc) (a : Nat) (k : Int) (ha : a < 1000000)
    (hhi : a < N) (hk : k + 1 ≤ 2) (h : Counting N a k s) :
    Counting N a (k + 1) (concStep N (ackEv a) s) ∧
      (concStep N (ackEv a) s).v.next_seq = s.v.next_seq := by
  obtain ⟨d1, d2, d3, d4, d5, d6, d7, d8, d9, d10⟩ := counting_dup N s a k ha hhi h
  have hk2 : ¬ (k + 1 > 2) := by omega
  rw [if_neg hk2] at d1 d2 d3
  exact ⟨⟨d10, d8, d9, d4, d1, d2⟩, d3⟩

/-- The transmit goroutine has left its loop only once `next_biggest_ack` has passed
`N`. -/
theorem concStep_exited (N : Nat) (e : Event) (s : Conc)
    (h : s.pc = Pc.exited → (N : Int) < s.v.next_biggest_ack) :
    (concStep N e s).pc = Pc.exited → (N : Int) < (concStep N e s).v.next_biggest_ack := by
  cases e with
  | tick now =>
    simp only [concStep]
    split_ifs with hp
    · exact h
    · unfold concTick
      split
      · split_ifs with hg
        · intro hc
          cases hc
        · intro _
          simp only
          omega
      · simp only
        intro hc
        split_ifs at hc
      · split
        · rename_i hpc _ _
          intro hc
          rw [hpc] at hc
          cases hc
        · intro hc
          cases hc
      · intro hc
        cases hc
      · split_ifs
        · rename_i hpc _
          intro hc
          rw [hpc] at hc
          cases hc
        · split
          · rename_i hpc _ _ _
            intro hc
            rw [hpc] at hc
            cases hc
          · split_ifs <;> intro hc <;> cases hc
      · exact h
  | recv d =>
    simp only [concStep]
    split_ifs with hp ha
    · exact h
    · obtain ⟨-, -, -, -, -, a6, -⟩ := ackBody_frame N d s.v
      simp only
      intro hc
      have := h hc
      rw [a6]
      split_ifs <;> omega
    · exact h
  | recvErr =>
    simp only [concStep]
    split_ifs with hp
    · exact h
    · exact h

theorem concRunFrom_exited (N : Nat) (evs : List Event) :
    ∀ s, (s.pc = Pc.exited → (N : Int) < s.v.next_biggest_ack) →
      (concRunFrom N s evs).pc = Pc.exited →
      (N : Int) < (concRunFrom N s evs).v.next_biggest_ack := by
  induction evs with
  | nil => exact fun s h => h
  | cons e es ih =>
    intro s h
    rw [concRunFrom_cons]
    exact ih _ (concStep_exited N e s h)

theorem concRun_exited (N : Nat) (evs : List Event) :
    (concRun N evs).pc = Pc.exited → (N : Int) < (concRun N evs).v.next_biggest_ack :=
  concRunFrom_exited N evs _ (fun hc => by cases hc)

/-- The guard of line 147 passing. -/
theorem concStep_guard (N : Nat) (now : Int) (s : Conc) (hp : s.panicked = false)
    (hpc : s.pc = Pc.guard) (hg : s.v.next_biggest_ack ≤ (N : Int)) :
    concStep N (Event.tick now) s = { s with pc := Pc.body } := by
  simp only [concStep, concTick, hp, hpc, Bool.false_eq_true, if_false, if_pos hg]

/-- The call `window()` of line 156. -/
theorem concStep_body (N : Nat) (now : Int) (s : Conc) (hp : s.panicked = false)
    (hpc : s.pc = Pc.body) :
    concStep N (Event.tick now) s
      = { s with v := (window s.v).1,
                 pc := if (window s.v).2 = true then Pc.send else Pc.stall } := by
  simp only [concStep, concTick, hp, hpc, Bool.false_eq_true, if_false]

/-- The call `send(next_seq)` of line 158 for a sequence number in `[1 .. N]`. -/
theorem concStep_send (N : Nat) (now : Int) (s : Conc) (hp : s.panicked = false)
    (hpc : s.pc = Pc.send) (h1 : 1 ≤ s.v.next_seq) (h2 : s.v.next_seq ≤ (N : Int))
    (ht : s.v.timeouts.length = N + 2) :
    concStep N (Event.tick now) s
      = { s with v := { s.v with timeouts :=
                          s.v.timeouts.set (s.v.next_seq - 1).toNat (some now) },
                 sent := s.sent ++
                   (if s.ackLoop = true then [Datagram.data s.v.next_seq] else []),
                 pc := Pc.incr } := by
  have e1 : ¬ (s.v.next_seq - 1 < 0) := by omega
  have e2 : (s.v.next_seq - 1).toNat < s.v.timeouts.length := by omega
  simp only [concStep, concTick, send, hp, hpc, Bool.false_eq_true, if_false, if_pos h2,
    if_neg e1, if_pos e2]

/-- The stall test of line 170 when `next_seq` already equals `next_biggest_ack`:
whatever the clock, the variables stay as they are. -/
theorem concStep_stall (N : Nat) (now : Int) (s : Conc) (hp : s.panicked = false)
    (hpc : s.pc = Pc.stall) (hq : s.v.next_seq = s.v.next_biggest_ack)
    (h0 : 0 ≤ s.v.next_biggest_ack) (hg : s.v.next_biggest_ack ≤ (N : Int))
    (ht : s.v.timeouts.length = N + 2) :
    concStep N (Event.tick now) s = { s with pc := Pc.guard } := by
  have e1 : ¬ (s.v.next_biggest_ack < 0) := by omega
  have e2 : s.v.next_biggest_ack.toNat < s.v.timeouts.length := by omega
  have e3 : ({ s.v with next_seq := s.v.next_biggest_ack } : Vars) = s.v := by
    rw [← hq]
  simp only [concStep, concTick, hp, hpc, Bool.false_eq_true, if_false, if_neg e1,
    List.getElem?_eq_getElem e2, e3]
  split_ifs <;> rfl

/-- From a state where fast retransmit for `a` is pending and the transmit goroutine
is at its guard: guard, `window()`, `send`. -/
theorem conc_retransmit_from_guard (N : Nat) (s : Conc) (a t1 t2 t3 : Int)
    (hp : s.panicked = false) (hloop : s.ackLoop = true) (hpc : s.pc = Pc.guard)
    (hlost : s.v.lost_ack = true) (hq : s.v.next_seq = a + 1)
    (hn : s.v.next_biggest_ack = a + 1) (h0 : 0 ≤ a) (hN : a + 1 ≤ (N : Int))
    (ht : s.v.timeouts.length = N + 2) :
    (concRunFrom N s [Event.tick t1, Event.tick t2]).v.borneInf = a + 1 ∧
    (concRunFrom N s [Event.tick t1, Event.tick t2]).v.borneSup = a + 65 ∧
    (concRunFrom N s [Event.tick t1, Event.tick t2]).pc = Pc.send ∧
    (concRunFrom N s [Event.tick t1, Event.tick t2, Event.tick t3]).v.borneInf = a + 1 ∧
    (concRunFrom N s [Event.tick t1, Event.tick t2, Event.tick t3]).v.borneSup = a + 65 ∧
    (concRunFrom N s [Event.tick t1, Event.tick t2, Event.tick t3]).sent
      = s.sent ++ [Datagram.data (a + 1)] ∧
    (concRunFrom N s [Event.tick t1, Event.tick t2, Event.tick t3]).panicked = false ∧
    (concRunFrom N s [Event.tick t1, Event.tick t2, Event.tick t3]).pc = Pc.incr := by
  obtain ⟨y1, y2, -, y4⟩ := window_lost s.v hlost (by rw [hn, hq])
  obtain ⟨-, -, -, w4, -, -, -, -, y9⟩ := window_frame s.v
  have hw : (window s.v).2 = true := by
    rw [y9, y1, y2, y4, hn, hq]
    omega
  have x1 : concRunFrom N s [Event.tick t1, Event.tick t2]
      = concStep N (Event.tick t2) (concStep N (Event.tick t1) s) := rfl
  have x2 : concRunFrom N s [Event.tick t1, Event.tick t2, Event.tick t3]
      = concStep N (Event.tick t3)
          (concStep N (Event.tick t2) (concStep N (Event.tick t1) s)) := rfl
  have g1 := concStep_guard N t1 s hp hpc (by rw [hn]; exact hN)
  have g2 : concStep N (Event.tick t2) (concStep N (Event.tick t1) s)
      = { s with v := (window s.v).1, pc := Pc.send } := by
    rw [g1, concStep_body N t2 { s with pc := Pc.body } hp rfl]
    simp only [hw, if_true]
  have g3 := concStep_send N t3 { s with v := (window s.v).1, pc := Pc.send } hp rfl
    (by simp only; rw [y4, hq]; omega) (by simp only; rw [y4, hq]; exact hN)
    (by simp only; rw [w4, ht])
  rw [x1, x2, g2, g3]
  simp only [hloop, if_true, y1, y2, y4, hn, hq]
  exact ⟨trivial, by omega, trivial, trivial, by omega, trivial, hp, trivial⟩

/-- From a state where fast retransmit for `a` is pending and the transmit goroutine
is not between `window()` and `next_seq++`: its statements up to the next `send`. -/
theorem conc_retransmit (N : Nat) (s : Conc) (a t0 t1 t2 t3 : Int)
    (hp : s.panicked = false) (hloop : s.ackLoop = true)
    (hpc : s.pc = Pc.guard ∨ s.pc = Pc.body ∨ s.pc = Pc.stall)
    (hlost : s.v.lost_ack = true) (hq : s.v.next_seq = a + 1)
    (hn : s.v.next_biggest_ack = a + 1) (h0 : 0 ≤ a) (hN : a + 1 ≤ (N : Int))
    (ht : s.v.timeouts.length = N + 2) :
    (concRunFrom N s (tickEvs (clocksToSend s.pc t0 t1 t2 t3))).v.borneInf = a + 1 ∧
    (concRunFrom N s (tickEvs (clocksToSend s.pc t0 t1 t2 t3))).v.borneSup = a + 65 ∧
    (concRunFrom N s (tickEvs (clocksToSend s.pc t0 t1 t2 t3))).sent
      = s.sent ++ [Datagram.data (a + 1)] ∧
    (concRunFrom N s (tickEvs (clocksToSend s.pc t0 t1 t2 t3))).panicked = false ∧
    (concRunFrom N s (tickEvs (clocksToSend s.pc t0 t1 t2 t3))).pc = Pc.incr := by
  obtain ⟨-, -, -, r4, r5, r6, r7, r8⟩ :=
    conc_retransmit_from_guard N { s with pc := Pc.guard } a t1 t2 t3 hp hloop rfl hlost hq
      hn h0 hN ht
  have hgo : ∀ u : Conc,
      u = concRunFrom N { s with pc := Pc.guard } [Event.tick t1, Event.tick t2, Event.tick t3] →
      u.v.borneInf = a + 1 ∧ u.v.borneSup = a + 65 ∧
        u.sent = s.sent ++ [Datagram.data (a + 1)] ∧ u.panicked = false ∧ u.pc = Pc.incr := by
    intro u hu
    rw [hu]
    exact ⟨r4, r5, r6, r7, r8⟩
  apply hgo
  rcases hpc with h | h | h
  · have hs : ({ s with pc := Pc.guard } : Conc) = s := by
      rw [← h]
    rw [h, hs]
    rfl
  · have hs : ({ s with pc := Pc.body } : Conc) = s := by
      rw [← h]
    have g1 := concStep_guard N t1 { s with pc := Pc.guard } hp rfl (by rw [hn]; exact hN)
    rw [h]
    show concRunFrom N s [Event.tick t2, Event.tick t3]
      = concRunFrom N (concStep N (Event.tick t1) { s with pc := Pc.guard })
          [Event.tick t2, Event.tick t3]
    rw [g1]
    exact congrArg (fun x => concRunFrom N x [Event.tick t2, Event.tick t3]) hs.symm
  · have g0 := concStep_stall N t0 s hp h (by rw [hq, hn]) (by omega) (by rw [hn]; exact hN) ht
    rw [h]
    show concRunFrom N (concStep N (Event.tick t0) s)
        [Event.tick t1, Event.tick t2, Event.tick t3] = _
    rw [g0]

theorem concRunFrom_acksThenTicks (N : Nat) (a : Nat) (c : List Int) (cs : List (List Int))
    (s : Conc) :
    concRunFrom N s (acksThenTicks a (c :: cs))
      = concRunFrom N (concRunFrom N (concStep N (ackEv a) s) (tickEvs c))
          (acksThenTicks a cs) := by
  show concRunFrom N s (ackEv a :: (tickEvs c ++ acksThenTicks a cs)) = _
  rw [concRunFrom_cons, concRunFrom_append]

theorem concRunFrom_acksThenTicks_last (N : Nat) (a : Nat) (c : List Int) (s : Conc) :
    concRunFrom N s (acksThenTicks a [c])
      = concRunFrom N (concStep N (ackEv a) s) (tickEvs c) := by
  rw [concRunFrom_acksThenTicks]
  rfl

/-- C11 (amended): in every reachable state with the process alive, the ACK loop
running, `same_ack = 0` and `lost_ack = false`, and for every six-digit `a` with
`last_ack < a < N`, four datagrams `"ACK" + format06(a)` with any statements of the
transmit goroutine between them (at the clock values `c1`, `c2`, `c3`) trigger fast
retransmit exactly on the fourth, provided the transmit goroutine is not between its
call `window()` and the completion of `next_seq++` when the fourth is processed: after
each of the first three ACK steps `lost_ack` is false; the fourth sets
`next_seq = a + 1`, `lost_ack = true` and `same_ack = 0`; and the statements of the
transmit goroutine up to its next `send`, executed with no ACK step between and at
whatever clock values, set the window to `[a+1 .. a+65]` and write segment `a + 1` and
nothing else. -/
theorem fast_retransmit_on_fourth_ack (N : Nat) (evs : List Event) (a : Nat)
    (c1 c2 c3 : List Int) (t0 t1 t2 t3 : Int)
    (halive : (concRun N evs).panicked = false) (hloop : (concRun N evs).ackLoop = true)
    (hsame : (concRun N evs).v.same_ack = 0) (hlost : (concRun N evs).v.lost_ack = false)
    (hlo : (concRun N evs).v.last_ack < (a : Int)) (hhi : a < N) (ha : a < 1000000)
    (hpc : (concRun N (evs ++ acksThenTicks a [c1, c2, c3])).pc ≠ Pc.send ∧
      (concRun N (evs ++ acksThenTicks a [c1, c2, c3])).pc ≠ Pc.incr) :
    (concRun N (evs ++ acksThenTicks a [[]])).v.lost_ack = false ∧
    (concRun N (evs ++ acksThenTicks a [c1, []])).v.lost_ack = false ∧
    (concRun N (evs ++ acksThenTicks a [c1, c2, []])).v.lost_ack = false ∧
    (concRun N (evs ++ acksThenTicks a [c1, c2, c3, []])).v.next_seq = (a : Int) + 1 ∧
    (concRun N (evs ++ acksThenTicks a [c1, c2, c3, []])).v.lost_ack = true ∧
    (concRun N (evs ++ acksThenTicks a [c1, c2, c3, []])).v.same_ack = 0 ∧
    (concRun N (evs ++ acksThenTicks a [c1, c2, c3,
      clocksToSend (concRun N (evs ++ acksThenTicks a [c1, c2, c3])).pc t0 t1 t2 t3])).v.borneInf
        = (a : Int) + 1 ∧
    (concRun N (evs ++ acksThenTicks a [c1, c2, c3,
      clocksToSend (concRun N (evs ++ acksThenTicks a [c1, c2, c3])).pc t0 t1 t2 t3])).v.borneSup
        = (a : Int) + 65 ∧
    (concRun N (evs ++ acksThenTicks a [c1, c2, c3,
      clocksToSend (concRun N (evs ++ acksThenTicks a [c1, c2, c3])).pc t0 t1 t2 t3])).sent
        = (concRun N (evs ++ acksThenTicks a [c1, c2, c3])).sent
            ++ [Datagram.data ((a : Int) + 1)] ∧
    (concRun N (evs ++ acksThenTicks a [c1, c2, c3,
      clocksToSend (concRun N (evs ++ acksThenTicks a [c1, c2, c3])).pc t0 t1 t2 t3])).panicked
        = false := by
  have hi := concRun_inv N evs
  have hN : (a : Int) + 1 ≤ (N : Int) := by omega
  have h0 : (0 : Int) ≤ (a : Int) := Int.natCast_nonneg a
  -- the first ACK
  obtain ⟨k1, -⟩ := counting_new N (concRun N evs) a ha hi halive hloop hsame hlost hlo hhi
  have k1t := counting_ticks N a 0 c1 _ k1
  -- the second and the third
  obtain ⟨k2, -⟩ := counting_dup_next N _ a 0 ha hhi (by decide) k1t
  have k2t := counting_ticks N a (0 + 1) c2 _ k2
  obtain ⟨k3, -⟩ := counting_dup_next N _ a (0 + 1) ha hhi (by decide) k2t
  have k3t := counting_ticks N a (0 + 1 + 1) c3 _ k3
  -- the fourth
  obtain ⟨d1, d2, d3, d4, d5, d6, d7, d8, d9, d10⟩ := counting_dup N _ a (0 + 1 + 1) ha hhi k3t
  rw [if_pos (by decide)] at d1 d2 d3
  -- the runs named in the statement
  have r1 : concRun N (evs ++ acksThenTicks a [[]]) = concStep N (ackEv a) (concRun N evs) := by
    rw [concRun_append, concRunFrom_acksThenTicks_last]
    rfl
  have r2 : concRun N (evs ++ acksThenTicks a [c1, []])
      = concStep N (ackEv a) (concRunFrom N (concStep N (ackEv a) (concRun N evs)) (tickEvs c1)) := by
    rw [concRun_append, concRunFrom_acksThenTicks, concRunFrom_acksThenTicks_last]
    rfl
  have r3 : concRun N (evs ++ acksThenTicks a [c1, c2, []])
      = concStep N (ackEv a) (concRunFrom N (concStep N (ackEv a)
          (concRunFrom N (concStep N (ackEv a) (concRun N evs)) (tickEvs c1))) (tickEvs c2)) := by
    rw [concRun_append, concRunFrom_acksThenTicks, concRunFrom_acksThenTicks,
      concRunFrom_acksThenTicks_last]
    rfl
  have rb : concRun N (evs ++ acksThenTicks a [c1, c2, c3])
      = concRunFrom N (concStep N (ackEv a) (concRunFrom N (concStep N (ackEv a)
          (concRunFrom N (concStep N (ackEv a) (concRun N evs)) (tickEvs c1))) (tickEvs c2)))
          (tickEvs c3) := by
    rw [concRun_append, concRunFrom_acksThenTicks, concRunFrom_acksThenTicks,
      concRunFrom_acksThenTicks_last]
  have r4 : concRun N (evs ++ acksThenTicks a [c1, c2, c3, []])
      = concStep N (ackEv a) (concRun N (evs ++ acksThenTicks a [c1, c2, c3])) := by
    rw [rb, concRun_append, concRunFrom_acksThenTicks, concRunFrom_acksThenTicks,
      concRunFrom_acksThenTicks, concRunFrom_acksThenTicks_last]
    rfl
  have r5 : ∀ c, concRun N (evs ++ acksThenTicks a [c1, c2, c3, c])
      = concRunFrom N (concStep N (ackEv a) (concRun N (evs ++ acksThenTicks a [c1, c2, c3])))
          (tickEvs c) := by
    intro c
    rw [rb, concRun_append, concRunFrom_acksThenTicks, concRunFrom_acksThenTicks,
      concRunFrom_acksThenTicks, concRunFrom_acksThenTicks_last]
  rw [← rb] at k3t d1 d2 d3 d4 d5 d6 d7 d8 d9 d10
  -- where the transmit goroutine stands
  have hpc3 : (concRun N (evs ++ acksThenTicks a [c1, c2, c3])).pc = Pc.guard ∨
      (concRun N (evs ++ acksThenTicks a [c1, c2, c3])).pc = Pc.body ∨
      (concRun N (evs ++ acksThenTicks a [c1, c2, c3])).pc = Pc.stall := by
    have hex := concRun_exited N (evs ++ acksThenTicks a [c1, c2, c3])
    have hg := k3t.inv.guard k3t.loop
    cases hc : (concRun N (evs ++ acksThenTicks a [c1, c2, c3])).pc with
    | guard => exact Or.inl rfl
    | body => exact Or.inr (Or.inl rfl)
    | stall => exact Or.inr (Or.inr rfl)
    | send => exact absurd hc hpc.1
    | incr => exact absurd hc hpc.2
    | exited =>
      have := hex hc
      omega
  rw [← d6] at hpc3
  obtain ⟨q1, q2, q3, q4, -⟩ := conc_retransmit N _ a t0 t1 t2 t3 d8 d9 hpc3 d2 d3 d5 h0 hN
    d10.tlen
  rw [d6] at q1 q2 q3 q4
  rw [d7] at q3
  rw [r1, r2, r3, r4, r5]
  exact ⟨k1.lost, k2.lost, k3.lost, d3, d2, d1, q1, q2, q3, q4⟩

set_option maxRecDepth 100000 in
/-- C11 (as stated, refuted), in a 200-packet session and for `a = 29`. First, once
segments 1 to 30 are written and four datagrams `ACK000010` have left a fast retransmit
pending, `same_ack = 0` and `last_ack = 10 < 29 < 200`, yet `lost_ack` is true after
each of the first three datagrams `ACK000029`. Second, when the transmit goroutine has
written segment 35 and not yet executed `next_seq++` (`same_ack = 0`, `lost_ack` false,
`last_ack = 0`), the fourth `ACK000029` sets `next_seq = 30`, the pending `next_seq++`
makes it 31, and the next transmit iteration sets the window to `[30 .. 94]` and
writes segment 31: segment 30 is not written again. -/
theorem fast_retransmit_counterexample :
    ((concRun 200 pendingScenario).v.same_ack = 0 ∧
      (concRun 200 pendingScenario).v.last_ack = 10 ∧
      (concRun 200 pendingScenario).ackLoop = true ∧
      (concRun 200 pendingScenario).panicked = false ∧
      (concRun 200 (pendingScenario ++ acksThenTicks 29 [[]])).v.lost_ack = true ∧
      (concRun 200 (pendingScenario ++ acksThenTicks 29 [[], []])).v.lost_ack = true ∧
      (concRun 200 (pendingScenario ++ acksThenTicks 29 [[], [], []])).v.lost_ack = true) ∧
    ((concRun 200 raceScenario).v.same_ack = 0 ∧
      (concRun 200 raceScenario).v.lost_ack = false ∧
      (concRun 200 raceScenario).v.last_ack = 0 ∧
      (concRun 200 raceScenario).ackLoop = true ∧
      (concRun 200 raceScenario).panicked = false ∧
      (concRun 200 raceScenario).pc = Pc.incr ∧
      (concRun 200 raceScenario).sent.length = 35 ∧
      (concRun 200 (raceScenario ++ acksThenTicks 29 [[], [], [], []])).v.next_seq = 30 ∧
      (concRun 200 (raceScenario ++ acksThenTicks 29 [[], [], [], []])).v.lost_ack = true ∧
      (concRun 200 (raceScenario ++ acksThenTicks 29 [[], [], [], [35000000]])).v.next_seq
        = 31 ∧
      (concRun 200
        (raceScenario ++ acksThenTicks 29 [[], [], [], iterationAt 35000000])).v.borneInf
          = 30 ∧
      (concRun 200
        (raceScenario ++ acksThenTicks 29 [[], [], [], iterationAt 35000000])).v.borneSup
          = 94 ∧
      (concRun 200
        (raceScenario ++ acksThenTicks 29 [[], [], [], iterationAt 35000000])).sent.length
          = 36 ∧
      (concRun 200
        (raceScenario ++ acksThenTicks 29 [[], [], [], iterationAt 35000000])).sent.getLast?
          = some (Datagram.data 31) ∧
      (concRun 200
        (raceScenario ++ acksThenTicks 29 [[], [], [], iterationAt 35000000])).sent.count
          (Datagram.data 30) = 1) :=
  ⟨⟨rfl, rfl, rfl, rfl, rfl, rfl, rfl⟩,
    ⟨rfl, rfl, rfl, rfl, rfl, rfl, rfl, rfl, rfl, rfl, rfl, rfl, rfl, rfl, rfl⟩⟩

set_option maxRecDepth 100000 in
/-- The hypotheses of the amended C11 hold in a 200-packet session for `a = 29` when
segments 1 to 30 are written and the transmit goroutine sleeps after its guard: it runs
one iteration after each of the first three datagrams `ACK000029` (writing segments 31,
32 and 33), the fourth finds it asleep again, and its next call of `send` writes
segment 30. -/
theorem fast_retransmit_on_fourth_ack_witness :
    ((concRun 200 sleepingScenario).panicked = false ∧
      (concRun 200 sleepingScenario).ackLoop = true ∧
      (concRun 200 sleepingScenario).v.same_ack = 0 ∧
      (concRun 200 sleepingScenario).v.lost_ack = false ∧
      (concRun 200 sleepingScenario).v.last_ack < ((29 : Nat) : Int) ∧
      (concRun 200 (sleepingScenario ++ acksThenTicks 29
        [iterationAt 31000000, iterationAt 32000000, iterationAt 33000000])).pc = Pc.body) ∧
    ((concRun 200 (sleepingScenario ++ acksThenTicks 29 [[]])).v.lost_ack = false ∧
    (concRun 200 (sleepingScenario ++ acksThenTicks 29
      [iterationAt 31000000, []])).v.lost_ack = false ∧
    (concRun 200 (sleepingScenario ++ acksThenTicks 29
      [iterationAt 31000000, iterationAt 32000000, []])).v.lost_ack = false ∧
    (concRun 200 (sleepingScenario ++ acksThenTicks 29
      [iterationAt 31000000, iterationAt 32000000, iterationAt 33000000, []])).v.next_seq
        = ((29 : Nat) : Int) + 1 ∧
    (concRun 200 (sleepingScenario ++ acksThenTicks 29
      [iterationAt 31000000, iterationAt 32000000, iterationAt 33000000, []])).v.lost_ack
        = true ∧
    (concRun 200 (sleepingScenario ++ acksThenTicks 29
      [iterationAt 31000000, iterationAt 32000000, iterationAt 33000000, []])).v.same_ack
        = 0 ∧
    (concRun 200 (sleepingScenario ++ acksThenTicks 29
      [iterationAt 31000000, iterationAt 32000000, iterationAt 33000000,
        clocksToSend (concRun 200 (sleepingScenario ++ acksThenTicks 29
          [iterationAt 31000000, iterationAt 32000000, iterationAt 33000000])).pc
          34000000 34000000 34000000 34000000])).v.borneInf = ((29 : Nat) : Int) + 1 ∧
    (concRun 200 (sleepingScenario ++ acksThenTicks 29
      [iterationAt 31000000, iterationAt 32000000, iterationAt 33000000,
        clocksToSend (concRun 200 (sleepingScenario ++ acksThenTicks 29
          [iterationAt 31000000, iterationAt 32000000, iterationAt 33000000])).pc
          34000000 34000000 34000000 34000000])).v.borneSup = ((29 : Nat) : Int) + 65 ∧
    (concRun 200 (sleepingScenario ++ acksThenTicks 29
      [iterationAt 31000000, iterationAt 32000000, iterationAt 33000000,
        clocksToSend (concRun 200 (sleepingScenario ++ acksThenTicks 29
          [iterationAt 31000000, iterationAt 32000000, iterationAt 33000000])).pc
          34000000 34000000 34000000 34000000])).sent
        = (concRun 200 (sleepingScenario ++ acksThenTicks 29
            [iterationAt 31000000, iterationAt 32000000, iterationAt 33000000])).sent
            ++ [Datagram.data (((29 : Nat) : Int) + 1)] ∧
    (concRun 200 (sleepingScenario ++ acksThenTicks 29
      [iterationAt 31000000, iterationAt 32000000, iterationAt 33000000,
        clocksToSend (concRun 200 (sleepingScenario ++ acksThenTicks 29
          [iterationAt 31000000, iterationAt 32000000, iterationAt 33000000])).pc
          34000000 34000000 34000000 34000000])).panicked = false) :=
  ⟨⟨rfl, rfl, rfl, rfl, by decide, rfl⟩,
    fast_retransmit_on_fourth_ack 200 sleepingScenario 29 (iterationAt 31000000)
      (iterationAt 32000000) (iterationAt 33000000) 34000000 34000000 34000000 34000000
      rfl rfl rfl rfl (by decide) (by decide) (by decide) ⟨by decide, by decide⟩⟩

/-! ### Every run of the serialised session is a run of the interleaved session -/

theorem sim_transmitBody (N : Nat) (now : Int) (v v1 : Vars) (a : Bool)
    (sent out : List Datagram) (hg : v.next_biggest_ack ≤ (N : Int))
    (hb : transmitBody N a now v = some (v1, out)) :
    ∃ es, concRunFrom N
        { v := v, ackLoop := a, pc := Pc.guard, panicked := false, sent := sent } es
      = { v := v1, ackLoop := a, pc := Pc.guard, panicked := false, sent := sent ++ out } := by
  unfold transmitBody at hb
  simp only at hb
  split_ifs at hb with hw hneg
  · split at hb
    · simp at hb
    · rename_i v2 out2 hs
      simp only [Option.some.injEq, Prod.mk.injEq] at hb
      obtain ⟨e1, e2⟩ := hb
      refine ⟨[Event.tick now, Event.tick now, Event.tick now, Event.tick now], ?_⟩
      simp only [concRunFrom, List.foldl, concStep, concTick, Bool.false_eq_true, if_false,
        if_pos hg, hw, if_true, hs]
      rw [← e1, ← e2]
  · split at hb
    · simp at hb
    · rename_i stamp hst
      refine ⟨[Event.tick now, Event.tick now, Event.tick now], ?_⟩
      simp only [concRunFrom, List.foldl, concStep, concTick, Bool.false_eq_true, if_false,
        if_pos hg, hw, if_neg hneg, hst]
      split_ifs at hb ⊢ with ht <;> simp only [Option.some.injEq, Prod.mk.injEq] at hb <;>
        obtain ⟨e1, e2⟩ := hb <;> rw [← e1, ← e2] <;> simp

theorem sim_step (N : Nat) (e : Event) (s s1 : Session) (h : step N e s = some s1) :
    ∃ es, concRunFrom N (concOf s) es = concOf s1 := by
  cases e with
  | tick now =>
    rcases step_tick_some N now s s1 h with (h1 | h1) | ⟨hsl, hg, v1, out, hb, h1⟩
    · subst h1
      exact ⟨[], rfl⟩
    · subst h1
      by_cases hs : s.sendLoop = true
      · have hg : ¬ s.v.next_biggest_ack ≤ (N : Int) := by
          intro hc
          unfold step at h
          simp only [hs, hc, if_true] at h
          split at h
          · simp at h
          · simp only [Option.some.injEq] at h
            have := congrArg Session.sendLoop h
            simp [hs] at this
        refine ⟨[Event.tick now], ?_⟩
        simp only [concRunFrom, List.foldl, concOf, concStep, concTick, hs, if_true,
          Bool.false_eq_true, if_false, if_neg hg]
      · refine ⟨[], ?_⟩
        simp only [concRunFrom, List.foldl, concOf, hs, Bool.false_eq_true, if_false]
    · obtain ⟨es, hes⟩ := sim_transmitBody N now s.v v1 s.ackLoop s.sent out hg hb
      refine ⟨es, ?_⟩
      subst h1
      simp only [concOf, hsl, if_true]
      exact hes
  | recv d =>
    rcases step_recv_some N d s s1 h with ⟨-, h1⟩ | ⟨ha, h1⟩
    · subst h1
      exact ⟨[], rfl⟩
    · subst h1
      refine ⟨[Event.recv d], ?_⟩
      simp only [concRunFrom, List.foldl, concOf, concStep, ha, if_true, Bool.false_eq_true,
        if_false]
  | recvErr =>
    rcases step_recvErr_some N s s1 h with h1 | h1
    · subst h1
      exact ⟨[], rfl⟩
    · subst h1
      refine ⟨[Event.recvErr], ?_⟩
      simp only [concRunFrom, List.foldl, concOf, concStep, Bool.false_eq_true, if_false]

theorem sim_runFrom (N : Nat) (evs : List Event) :
    ∀ s s1, runFrom N s evs = some s1 → ∃ es, concRunFrom N (concOf s) es = concOf s1 := by
  induction evs with
  | nil =>
    intro s s1 h
    simp only [runFrom, Option.some.injEq] at h
    subst h
    exact ⟨[], rfl⟩
  | cons e es ih =>
    intro s s1 h
    unfold runFrom at h
    split at h
    · simp at h
    · rename_i s2 hs
      obtain ⟨es1, h1⟩ := sim_step N e s s2 hs
      obtain ⟨es2, h2⟩ := ih s2 s1 h
      exact ⟨es1 ++ es2, by rw [concRunFrom_append, h1, h2]⟩

/-- Every state a serialised run reaches is reached by an interleaved run in which
each iteration of the transmit goroutine executes without an ACK step in between. -/
theorem run_is_interleaved_run (N : Nat) (evs : List Event) (s : Session)
    (h : run N evs = some s) : ∃ es, concRun N es = concOf s := by
  obtain ⟨es, hes⟩ := sim_runFrom N evs _ s h
  exact ⟨es, hes⟩

set_option maxRecDepth 100000 in
/-- The index of line 170 can be out of range: with a one-packet file, after 65
iterations (`next_seq = 66`), the transmit goroutine passes its guard, the datagram
`ACK000005` then makes `next_biggest_ack = 6`, `window()` returns false and the stall
test reads `timeouts[6]` in a slice of length 3. -/
theorem stall_index_out_of_range :
    (concRun 1 (ticksFrom 0 250000 261)).pc = Pc.body ∧
    (concRun 1 (ticksFrom 0 250000 261)).v.next_seq = 66 ∧
    (concRun 1 (ticksFrom 0 250000 261 ++ [Event.recv (ackDatagram 5)])).v.next_biggest_ack
      = 6 ∧
    (concRun 1 (ticksFrom 0 250000 261 ++
      [Event.recv (ackDatagram 5), Event.tick 66000000])).pc = Pc.stall ∧
    (concRun 1 (ticksFrom 0 250000 261 ++
      [Event.recv (ackDatagram 5), Event.tick 66000000])).v.timeouts.length = 3 ∧
    (concRun 1 (ticksFrom 0 250000 261 ++
      [Event.recv (ackDatagram 5), Event.tick 66000000])).panicked = false ∧
    (concRun 1 (ticksFrom 0 250000 261 ++
      [Event.recv (ackDatagram 5), Event.tick 66000000, Event.tick 66000000])).panicked
      = true :=
  ⟨rfl, rfl, rfl, rfl, rfl, rfl, rfl⟩

/-! ### C8 -/

/-- The scan of `%06d` stops at the first byte that is not a digit and succeeds with
the digits read so far: `3_0000` decodes to 3, `12` followed by four zero bytes to 12,
`-00007` to -7; `abcdef`, the empty string and a lone sign fail. -/
theorem getSeq_examples :
    sscanfInt [51, 95, 48, 48, 48, 48] = some 3 ∧
    sscanfInt [49, 50, 0, 0, 0, 0] = some 12 ∧
    sscanfInt [45, 48, 48, 48, 48, 55] = some (-7) ∧
    sscanfInt [32, 32, 52, 50, 120, 120] = some 42 ∧
    sscanfInt [97, 98, 99, 100, 101, 102] = none ∧
    sscanfInt [] = none ∧
    sscanfInt [43] = none ∧
    sscanfInt [32, 10, 49, 50, 51, 52] = none ∧
    getSeq [51, 95, 48, 48, 48, 48] = 3 ∧
    getSeq [97, 98, 99, 100, 101, 102] = 0 := by
  refine ⟨?_, ?_, ?_, ?_, ?_, ?_, ?_, ?_, ?_, ?_⟩ <;> decide

set_option maxRecDepth 8000 in
/-- C8 (as stated, refuted): in the initial state of a 200-packet session the datagram
`ACKabcdef`, whose bytes `[3..9)` do not scan as an integer, raises `same_ack` from 0
to 1; three of them after the first transmit iteration set `lost_ack` and move
`next_seq` back from 2 to 1. -/
theorem malformed_ack_counterexample :
    sscanfInt (((goCopy (concRun 200 []).v.buf
        [65, 67, 75, 97, 98, 99, 100, 101, 102]).drop 3).take 6) = none ∧
    (concRun 200 []).ackLoop = true ∧ (concRun 200 []).v.same_ack = 0 ∧
    (concRun 200 [Event.recv [65, 67, 75, 97, 98, 99, 100, 101, 102]]).v.same_ack = 1 ∧
    (concRun 200 (tickEvs (iterationAt 0))).v.next_seq = 2 ∧
    (concRun 200 (tickEvs (iterationAt 0))).v.lost_ack = false ∧
    (concRun 200 (tickEvs (iterationAt 0) ++
      [Event.recv [65, 67, 75, 97, 98, 99, 100, 101, 102],
        Event.recv [65, 67, 75, 97, 98, 99, 100, 101, 102],
        Event.recv [65, 67, 75, 97, 98, 99, 100, 101, 102]])).v.next_seq = 1 ∧
    (concRun 200 (tickEvs (iterationAt 0) ++
      [Event.recv [65, 67, 75, 97, 98, 99, 100, 101, 102],
        Event.recv [65, 67, 75, 97, 98, 99, 100, 101, 102],
        Event.recv [65, 67, 75, 97, 98, 99, 100, 101, 102]])).v.lost_ack = true :=
  ⟨rfl, rfl, rfl, rfl, rfl, rfl, rfl, rfl⟩

/-- C8 (amended): in every state an interleaved run reaches with the ACK loop running,
a datagram whose bytes `buf[3..9)` fail to scan is processed exactly like the ACK value
0; so when `last_ack ≠ 0` it is ignored (`last_ack`, `same_ack`, `next_seq`, `lost_ack`
and `next_biggest_ack` unchanged, nothing written, the loop continues). -/
theorem malformed_ack_as_zero (N : Nat) (evs : List Event) (d : List Nat)
    (hloop : (concRun N evs).ackLoop = true)
    (hbad : sscanfInt (((goCopy (concRun N evs).v.buf d).drop 3).take 6) = none) :
    ackBody N d (concRun N evs).v
      = ackUpdate N 0 { (concRun N evs).v with buf := goCopy (concRun N evs).v.buf d } ∧
    ((concRun N evs).v.last_ack ≠ 0 →
      (concRun N (evs ++ [Event.recv d])).sent = (concRun N evs).sent ∧
      (concRun N (evs ++ [Event.recv d])).ackLoop = true ∧
      (concRun N (evs ++ [Event.recv d])).v.last_ack = (concRun N evs).v.last_ack ∧
      (concRun N (evs ++ [Event.recv d])).v.same_ack = (concRun N evs).v.same_ack ∧
      (concRun N (evs ++ [Event.recv d])).v.next_seq = (concRun N evs).v.next_seq ∧
      (concRun N (evs ++ [Event.recv d])).v.lost_ack = (concRun N evs).v.lost_ack ∧
      (concRun N (evs ++ [Event.recv d])).v.next_biggest_ack
        = (concRun N evs).v.next_biggest_ack) := by
  have hi := concRun_inv N evs
  have hdec : decodeAck (concRun N evs).v.buf d = 0 := by
    unfold decodeAck getSeq
    rw [hbad]
  have hbody : ackBody N d (concRun N evs).v
      = ackUpdate N 0 { (concRun N evs).v with buf := goCopy (concRun N evs).v.buf d } := by
    unfold ackBody
    rw [hdec]
  refine ⟨hbody, ?_⟩
  intro hne
  have h0 := hi.last_nonneg
  have h1 := hi.nba_eq
  have h2 := hi.guard hloop
  have hz : ackUpdate N 0 { (concRun N evs).v with buf := goCopy (concRun N evs).v.buf d }
      = ({ (concRun N evs).v with buf := goCopy (concRun N evs).v.buf d }, []) :=
    ackUpdate_zero_ignored N _ (by simp only; omega) (by simp only; omega) (by simp only; omega)
  rw [concRun_snoc]
  by_cases hp : (concRun N evs).panicked = true
  · have hst : concStep N (Event.recv d) (concRun N evs) = concRun N evs := by
      simp only [concStep, hp, if_true]
    rw [hst]
    exact ⟨rfl, hloop, rfl, rfl, rfl, rfl, rfl⟩
  · simp only [concStep, hp, hloop, Bool.false_eq_true, if_false, if_true, hbody, hz,
      List.append_nil, decide_eq_true_eq]
    exact ⟨trivial, h2, trivial, trivial, trivial, trivial, trivial⟩

set_option maxRecDepth 8000 in
/-- The hypotheses of the amended C8 hold in a 3-packet session after segment 1 was
sent and acknowledged, for the datagram `ACKabcdef`. -/
theorem malformed_ack_as_zero_witness :
    ((concRun 3 (tickEvs (iterationAt 0) ++ [Event.recv (ackDatagram 1)])).ackLoop = true ∧
      sscanfInt (((goCopy
        (concRun 3 (tickEvs (iterationAt 0) ++ [Event.recv (ackDatagram 1)])).v.buf
        [65, 67, 75, 97, 98, 99, 100, 101, 102]).drop 3).take 6) = none ∧
      (concRun 3 (tickEvs (iterationAt 0) ++ [Event.recv (ackDatagram 1)])).v.last_ack ≠ 0) ∧
    (ackBody 3 [65, 67, 75, 97, 98, 99, 100, 101, 102]
        (concRun 3 (tickEvs (iterationAt 0) ++ [Event.recv (ackDatagram 1)])).v
      = ackUpdate 3 0
          { (concRun 3 (tickEvs (iterationAt 0) ++ [Event.recv (ackDatagram 1)])).v with
            buf := goCopy
              (concRun 3 (tickEvs (iterationAt 0) ++ [Event.recv (ackDatagram 1)])).v.buf
              [65, 67, 75, 97, 98, 99, 100, 101, 102] } ∧
    ((concRun 3 (tickEvs (iterationAt 0) ++ [Event.recv (ackDatagram 1)])).v.last_ack ≠ 0 →
      (concRun 3 (tickEvs (iterationAt 0) ++ [Event.recv (ackDatagram 1)] ++
          [Event.recv [65, 67, 75, 97, 98, 99, 100, 101, 102]])).sent
        = (concRun 3 (tickEvs (iterationAt 0) ++ [Event.recv (ackDatagram 1)])).sent ∧
      (concRun 3 (tickEvs (iterationAt 0) ++ [Event.recv (ackDatagram 1)] ++
          [Event.recv [65, 67, 75, 97, 98, 99, 100, 101, 102]])).ackLoop = true ∧
      (concRun 3 (tickEvs (iterationAt 0) ++ [Event.recv (ackDatagram 1)] ++
          [Event.recv [65, 67, 75, 97, 98, 99, 100, 101, 102]])).v.last_ack
        = (concRun 3 (tickEvs (iterationAt 0) ++ [Event.recv (ackDatagram 1)])).v.last_ack ∧
      (concRun 3 (tickEvs (iterationAt 0) ++ [Event.recv (ackDatagram 1)] ++
          [Event.recv [65, 67, 75, 97, 98, 99, 100, 101, 102]])).v.same_ack
        = (concRun 3 (tickEvs (iterationAt 0) ++ [Event.recv (ackDatagram 1)])).v.same_ack ∧
      (concRun 3 (tickEvs (iterationAt 0) ++ [Event.recv (ackDatagram 1)] ++
          [Event.recv [65, 67, 75, 97, 98, 99, 100, 101, 102]])).v.next_seq
        = (concRun 3 (tickEvs (iterationAt 0) ++ [Event.recv (ackDatagram 1)])).v.next_seq ∧
      (concRun 3 (tickEvs (iterationAt 0) ++ [Event.recv (ackDatagram 1)] ++
          [Event.recv [65, 67, 75, 97, 98, 99, 100, 101, 102]])).v.lost_ack
        = (concRun 3 (tickEvs (iterationAt 0) ++ [Event.recv (ackDatagram 1)])).v.lost_ack ∧
      (concRun 3 (tickEvs (iterationAt 0) ++ [Event.recv (ackDatagram 1)] ++
          [Event.recv [65, 67, 75, 97, 98, 99, 100, 101, 102]])).v.next_biggest_ack
        = (concRun 3
            (tickEvs (iterationAt 0) ++ [Event.recv (ackDatagram 1)])).v.next_biggest_ack)) :=
  ⟨⟨rfl, rfl, by decide⟩,
    malformed_ack_as_zero 3 (tickEvs (iterationAt 0) ++ [Event.recv (ackDatagram 1)])
      [65, 67, 75, 97, 98, 99, 100, 101, 102] rfl rfl⟩

end TcpOverUdp
